import Mathlib

/-!
Verification of the crewai research backend: the LangGraph research pipeline
(`src/crewai/backend/langgraph_pipeline.py`), the research service event layer
(`src/crewai/backend/research_service.py`), the SSE queue of
(`src/crewai/backend/main.py`), and the graph-definition layer described by the
specification.

Modelling conventions:
* Python's `TypedDict` state is a partial map `StateField → Option String`;
  a subscript read `state["k"]` fails with `PyErr.keyError` when the key is
  absent, while `state.get(k, d)` returns the default.
* The generation backend (`ChatOpenAI.invoke`) and the DDGS network search are
  opaque external calls, abstracted as the fields of `Backend`.  `llm` may fail
  (an API call can raise); `net` is total because `duckduckgo_search` catches
  every exception internally and returns a fallback string.
* LangGraph's Pregel execution of the compiled graph is embedded as `stepGraph`:
  supersteps strategist; writer; {fact_checker, editor} in parallel; merge.
  The Boolean `order` chooses which of the two parallel branch updates is merged
  into the state first (and which is streamed first), modelling the
  nondeterministic completion order of the two branches.  When both parallel
  tasks raise, the first submitted task's exception (fact_checker) propagates.
* The module-level search cache `_search_cache` is threaded explicitly as a
  `SearchCache` association list.
-/

inductive StateField where
  | input
  | mode
  | research
  | draft
  | fact_checked
  | edited
  | final
  deriving DecidableEq, Repr

def StateField.pyName : StateField → String
  | .input => "input"
  | .mode => "mode"
  | .research => "research"
  | .draft => "draft"
  | .fact_checked => "fact_checked"
  | .edited => "edited"
  | .final => "final"

inductive PyErr where
  | keyError (f : StateField)
  | llmError (msg : String)
  deriving DecidableEq, Repr

/-- Python's `str(e)`: `str(KeyError('k'))` prints the quoted key; an API error
prints its message. -/
def PyErr.pyStr : PyErr → String
  | .keyError f => "'" ++ f.pyName ++ "'"
  | .llmError m => m

/-- One result dict from `ddgs.text(query, max_results=5)`; the source reads its
keys with `.get` and a default, so the fields are optional. -/
structure SearchItem where
  title : Option String
  body : Option String
  href : Option String
  deriving DecidableEq, Repr

/-- The opaque external collaborators: the LLM (`ChatOpenAI.invoke` over a list
of (role, content) messages, which may raise) and the DDGS text search (total,
because `duckduckgo_search` swallows its exceptions). -/
structure Backend where
  net : String → List SearchItem
  llm : List (String × String) → Except String String

def liftLLM (r : Except String String) : Except PyErr String :=
  r.mapError PyErr.llmError

/-- The module-level `_search_cache` dict, threaded explicitly. -/
abbrev SearchCache := List (String × String)

/-- The body of the loop in `duckduckgo_search` building one numbered entry:
`f"{i}. {title}\n   {body[:300]}\n   Source: {href}\n\n"` with the dict-get
defaults of the source. -/
def formatSearchResult (i : Nat) (r : SearchItem) : String :=
  toString i ++ ". " ++ r.title.getD "Untitled" ++ "\n   " ++
    (r.body.getD "").take 300 ++ "\n   Source: " ++ r.href.getD "" ++ "\n\n"

def formatSearchResults (query : String) (results : List SearchItem) : String :=
  "Recent search results for '" ++ query ++ "':\n\n" ++
    String.join (results.enum.map (fun p => formatSearchResult (p.1 + 1) p.2))

/-- The cache-miss path of `duckduckgo_search`. -/
def freshSearch (be : Backend) (query : String) : String :=
  let results := be.net query
  if results.isEmpty then "No recent results found for '" ++ query ++ "'"
  else formatSearchResults query results

/-- `duckduckgo_search` with its module-level cache: a hit returns the cached
string, a miss computes, stores and returns the fresh result. -/
def duckduckgo_search (be : Backend) (cache : SearchCache) (query : String) :
    String × SearchCache :=
  match cache.lookup query with
  | some r => (r, cache)
  | none =>
      let out := freshSearch be query
      (out, (query, out) :: cache)

def get_strategist_prompt (topic mode : String) : String :=
  if mode = "gen-z" then
    "Research the topic: \"" ++ topic ++ "\"\n\nYour task is to:\n1. Focus on what's CURRENT in 2026 - we are now in January 2026\n2. Find recent articles, news, and updates from 2025-2026\n3. Identify what's trending RIGHT NOW in 2026, not old stuff from 2023\n4. Look for good sources (but keep it real)\n5. Put together a vibe check outline with what matters TODAY\n\nIMPORTANT: Avoid outdated information from 2023 or earlier. Focus on recent 2025-2026 developments.\nFind recent, actually useful info that slaps. No cap.\n\nUse the search tool to find current information."
  else
    "Conduct comprehensive research on: \"" ++ topic ++ "\"\n\nYour task is to:\n1. Focus exclusively on CURRENT 2026 information - we are in January 2026\n2. Identify recent trends, partnerships, announcements, and developments from 2025-2026\n3. Avoid outdated information from 2023 - focus on RECENT 2025-2026 trends instead\n4. Locate latest expert commentary and recent market analysis from 2025-2026\n5. Develop a structured, evidence-based research outline grounded in CURRENT 2026 data\n\nCRITICAL: It is now 2026. Do NOT cite 2023 information. Focus ONLY on recent 2025-2026 developments.\nUse the search tool to find current market intelligence and recent company announcements."

def get_writer_prompt (mode : String) : String :=
  if mode = "gen-z" then
    "Using the research provided, write something that actually hits.\n\nIMPORTANT - Use proper markdown formatting:\n- Start with # for the main title\n- Use ## for major sections\n- Use ### for subsections\n\nKeep it:\n1. Real and relatable from the jump\n2. Organized with clear headings (# ## ###)\n3. Packed with actual facts and insights\n4. Chill but smart (you know the vibe)\n5. Stuff people can actually use\n\nMake it something people actually want to read."
  else
    "Using the research provided, write an analytical piece on this topic.\n\nIMPORTANT - Use proper markdown formatting:\n- Start with # for the main title\n- Use ## for major sections\n- Use ### for subsections\n\nRequirements:\n1. Establish context and significance in the introduction\n2. Organize with clear markdown headings (# ## ###)\n3. Integrate evidence, data, and quotes with proper attribution\n4. Maintain rigorous, professional tone throughout\n5. Conclude with synthesis and implications\n\nThe piece should be comprehensive and well-structured with proper headings."

def get_fact_checker_prompt (_mode : String) : String :=
  "CRITICAL: You MUST verify every factual claim in the content.\n\nFor EVERY factual claim (stats, records, dates, quotes):\n1. Search for the claim to verify it\n2. Compare what the content says vs what you find\n3. If wrong, REPLACE with the correct info\n4. If you can't verify it, REMOVE the claim\n\nDO NOT just pass through content. Actually verify each claim.\n\nReturn the corrected content with all facts verified."

def get_editor_prompt (mode : String) : String :=
  if mode = "gen-z" then
    "Polish this piece without losing the vibe.\n\nCheck:\n1. Does it actually flow?\n2. Is the voice consistent?\n3. Grammar and spelling tight?\n4. Sentences hit the way they should?\n5. Formatting looks clean?\n6. Headlines work for search?\n7. H1/H2/H3 headings exist?\n\nKeep it real while making it shine. Light touch only.\nReturn the polished content."
  else
    "Review and refine this analytical piece for excellence.\n\nFocus on:\n1. Logical flow and argument coherence\n2. Consistency in analysis and perspective\n3. Correctness of grammar, syntax, and terminology\n4. Academic rigor and citation accuracy\n5. Professional formatting and structure\n6. Search-friendly headline\n7. Proper H1/H2/H3 heading structure\n\nElevate the analysis while preserving intellectual rigor. Light touch.\nReturn the refined content."

/-- The shared run state: LangGraph's `ResearchState` TypedDict as a partial
map from field to value. -/
def ResearchState := StateField → Option String

/-- Python subscript read `state["f"]`: raises `KeyError` when absent. -/
def ResearchState.getItem (s : ResearchState) (f : StateField) : Except PyErr String :=
  match s f with
  | some v => Except.ok v
  | none => Except.error (PyErr.keyError f)

/-- Python `state.get(f, d)`: default on absence, never raises. -/
def ResearchState.pyGet (s : ResearchState) (f : StateField) (d : String) : String :=
  (s f).getD d

/-- Merging one node's single-key partial update into the state (LangGraph's
LastValue channel update). -/
def ResearchState.set (s : ResearchState) (f : StateField) (v : String) : ResearchState :=
  fun g => if g = f then some v else s g

def strategistSystem : String :=
  "You are an expert content strategist. Use the search results provided to create a comprehensive research outline."

def writerSystem : String :=
  "You are a talented writer who excels at crafting engaging, informative content."

def extractClaimsSystem : String :=
  "Extract 3-5 key factual claims (statistics, dates, figures) from this content that need verification."

def factCheckerSystem : String :=
  "You are a meticulous fact checker. Verify claims and correct any errors."

def editorSystem : String :=
  "You are a fast, efficient editor who polishes content quickly."

def mergeSystem : String :=
  "Merge these two versions of the content. Use the fact-checked version as the primary source (it has verified facts), but incorporate any stylistic improvements from the edited version."

/-- `strategist_node`: reads `input` and `mode` by subscript, performs the three
searches, and asks the LLM for the research outline.  Returns the partial
update `{"research": response.content}` and the updated search cache. -/
def strategist_node (be : Backend) (cache : SearchCache) (s : ResearchState) :
    Except PyErr (StateField × String) × SearchCache :=
  match s.getItem .input with
  | .error e => (.error e, cache)
  | .ok topic =>
    match s.getItem .mode with
    | .error e => (.error e, cache)
    | .ok mode =>
      let sr1 := duckduckgo_search be cache (topic ++ " 2026")
      let sr2 := duckduckgo_search be sr1.2 (topic ++ " latest news")
      let sr3 := duckduckgo_search be sr2.2 (topic ++ " trends 2025 2026")
      let combined := String.intercalate "\n\n" [sr1.1, sr2.1, sr3.1]
      let prompt := get_strategist_prompt topic mode
      ((liftLLM (be.llm [("system", strategistSystem),
          ("human", prompt ++ "\n\nSearch Results:\n" ++ combined)])).map
        (fun resp => (StateField.research, resp)), sr3.2)

/-- `writer_node`: reads `mode` and `research` by subscript and writes
`{"draft": response.content}`. -/
def writer_node (be : Backend) (s : ResearchState) : Except PyErr (StateField × String) := do
  let mode ← s.getItem .mode
  let research ← s.getItem .research
  let prompt := get_writer_prompt mode
  let resp ← liftLLM (be.llm [("system", writerSystem),
    ("human", prompt ++ "\n\nResearch to use:\n" ++ research)])
  return (StateField.draft, resp)

/-- `fact_checker_node`: reads `mode` and `draft` by subscript, extracts claims
with an LLM call whose result is unused, reads `input` by subscript for the
verification search, and writes `{"fact_checked": response.content}`. -/
def fact_checker_node (be : Backend) (cache : SearchCache) (s : ResearchState) :
    Except PyErr (StateField × String) × SearchCache :=
  match s.getItem .mode with
  | .error e => (.error e, cache)
  | .ok mode =>
    match s.getItem .draft with
    | .error e => (.error e, cache)
    | .ok draft =>
      match liftLLM (be.llm [("system", extractClaimsSystem), ("human", draft)]) with
      | .error e => (.error e, cache)
      | .ok _claims =>
        match s.getItem .input with
        | .error e => (.error e, cache)
        | .ok topic =>
          let sv := duckduckgo_search be cache ("verify " ++ topic ++ " facts statistics")
          let prompt := get_fact_checker_prompt mode
          ((liftLLM (be.llm [("system", factCheckerSystem),
              ("human", prompt ++ "\n\nContent to fact-check:\n" ++ draft ++
                "\n\nVerification search results:\n" ++ sv.1)])).map
            (fun r => (StateField.fact_checked, r)), sv.2)

/-- `editor_node`: reads `mode` and `draft` by subscript (it edits the original
draft, in parallel with the fact checker) and writes `{"edited": ...}`. -/
def editor_node (be : Backend) (s : ResearchState) : Except PyErr (StateField × String) := do
  let mode ← s.getItem .mode
  let draft ← s.getItem .draft
  let prompt := get_editor_prompt mode
  let resp ← liftLLM (be.llm [("system", editorSystem),
    ("human", prompt ++ "\n\nContent to edit:\n" ++ draft)])
  return (StateField.edited, resp)

/-- The human message `merge_node` builds from the two branch outputs. -/
def mergeHuman (fact_checked edited : String) : String :=
  "Fact-checked version:\n" ++ fact_checked ++ "\n\n---\n\nEdited version:\n" ++ edited ++
    "\n\nCreate a final merged version that combines accurate facts with polished writing."

/-- The message list `merge_node` sends to the LLM. -/
def mergeMessages (fact_checked edited : String) : List (String × String) :=
  [("system", mergeSystem), ("human", mergeHuman fact_checked edited)]

/-- `merge_node`: reads `fact_checked` and `edited` with `state.get(..., "")`
(default on absence, no KeyError) and writes `{"final": response.content}`. -/
def merge_node (be : Backend) (s : ResearchState) : Except PyErr (StateField × String) :=
  let fact_checked := s.pyGet .fact_checked ""
  let edited := s.pyGet .edited ""
  (liftLLM (be.llm (mergeMessages fact_checked edited))).map
    (fun r => (StateField.final, r))

inductive NodeName where
  | strategist
  | writer
  | fact_checker
  | editor
  | merge
  deriving DecidableEq, Repr

/-- `node_display_names` of `run_research` / `run_research_async`. -/
def displayName : NodeName → String
  | .strategist => "Content Strategist"
  | .writer => "Blog Writer"
  | .fact_checker => "Fact Checker"
  | .editor => "Content Editor"
  | .merge => "Finalizing"

/-- The outcome of one LangGraph execution of the compiled research graph:
the final state or the first raised exception tagged with its node, the nodes
whose tasks were started, the per-node updates yielded to the stream consumer
in yield order, and the search cache after the run. -/
structure ExecResult where
  result : Except (NodeName × PyErr) ResearchState
  started : List NodeName
  streamed : List (NodeName × StateField × String)
  cache : SearchCache

/-- LangGraph Pregel execution of the graph built by `build_research_graph`:
START → strategist → writer → {fact_checker, editor} → merge → END.
`order = true` merges (and streams) the fact checker's update before the
editor's; `order = false` the other way around, modelling the branch that
completes first.  Both parallel tasks are started from the same snapshot of
the state; a failing superstep streams no update and downstream supersteps
are not started. -/
def stepGraph (be : Backend) (order : Bool) (cache : SearchCache) (s0 : ResearchState) :
    ExecResult :=
  match strategist_node be cache s0 with
  | (.error e, c1) => ⟨.error (.strategist, e), [.strategist], [], c1⟩
  | (.ok u1, c1) =>
    let s1 := s0.set u1.1 u1.2
    match writer_node be s1 with
    | .error e => ⟨.error (.writer, e), [.strategist, .writer], [(.strategist, u1)], c1⟩
    | .ok u2 =>
      let s2 := s1.set u2.1 u2.2
      match fact_checker_node be c1 s2, editor_node be s2 with
      | (.error e, c2), _ =>
          ⟨.error (.fact_checker, e), [.strategist, .writer, .fact_checker, .editor],
            [(.strategist, u1), (.writer, u2)], c2⟩
      | (.ok _, c2), .error e =>
          ⟨.error (.editor, e), [.strategist, .writer, .fact_checker, .editor],
            [(.strategist, u1), (.writer, u2)], c2⟩
      | (.ok uF, c2), .ok uE =>
        let s3 := if order then (s2.set uF.1 uF.2).set uE.1 uE.2
                  else (s2.set uE.1 uE.2).set uF.1 uF.2
        let par : List (NodeName × StateField × String) :=
          if order then [(.fact_checker, uF), (.editor, uE)]
          else [(.editor, uE), (.fact_checker, uF)]
        match merge_node be s3 with
        | .error e =>
            ⟨.error (.merge, e), [.strategist, .writer, .fact_checker, .editor, .merge],
              [(.strategist, u1), (.writer, u2)] ++ par, c2⟩
        | .ok u4 =>
            ⟨.ok (s3.set u4.1 u4.2), [.strategist, .writer, .fact_checker, .editor, .merge],
              [(.strategist, u1), (.writer, u2)] ++ par ++ [(.merge, u4)], c2⟩

/-- The `initial_state` dict built by `run_research` / `run_research_async`:
`input` and `mode` from the caller, every other field present and empty. -/
def initialState (input_text mode : String) : ResearchState := fun f =>
  match f with
  | .input => some input_text
  | .mode => some mode
  | _ => some ""

/-- One callback event: the dicts sent through the service callbacks and the
SSE stream, tagged by their `type` field. -/
inductive AgentEvent where
  | agent_start (agent message : String)
  | agent_progress (agent : String) (progress : Nat) (message : String)
  | agent_complete (agent output : String)
  | complete (research_id content : String)
  | error (message : String)
  deriving DecidableEq, Repr

/-- The synchronous `run_research`: streams the graph once for progress events
(the callback receives one `agent_complete` per streamed node), then runs
`research_graph.invoke(initial_state)` a second time and returns
`final_state.get("final", final_state.get("draft", ""))`.  Returns the callback
events, and the result string with the cache or the raised exception. -/
def run_research (be : Backend) (o1 o2 : Bool) (cache : SearchCache)
    (input_text mode : String) :
    List AgentEvent × Except (NodeName × PyErr) (String × SearchCache) :=
  let r1 := stepGraph be o1 cache (initialState input_text mode)
  let evs := r1.streamed.map (fun p => AgentEvent.agent_complete (displayName p.1) "")
  match r1.result with
  | .error fe => (evs, .error fe)
  | .ok _ =>
    let r2 := stepGraph be o2 r1.cache (initialState input_text mode)
    match r2.result with
    | .error fe => (evs, .error fe)
    | .ok s => (evs, .ok (s.pyGet .final (s.pyGet .draft ""), r2.cache))

/-- The first entry of `node_phases` for each display name in
`run_research_async`. -/
def asyncPhase0 : NodeName → String
  | .strategist => "Searching for recent trends..."
  | .writer => "Creating engaging introduction..."
  | .fact_checker => "Identifying claims..."
  | .editor => "Checking grammar..."
  | .merge => "Merging results..."

/-- The three callback events `run_research_async` emits for one streamed node:
start (first phase message), progress 100, complete. -/
def asyncNodeEvents (p : NodeName × StateField × String) : List AgentEvent :=
  [AgentEvent.agent_start (displayName p.1) (asyncPhase0 p.1),
   AgentEvent.agent_progress (displayName p.1) 100 "",
   AgentEvent.agent_complete (displayName p.1) ""]

/-- `run_research_async`: one streamed execution; per node start/progress/
complete events; captures `node_output["final"]` when present and truthy and
returns `final_result or ""`. -/
def run_research_async (be : Backend) (o : Bool) (cache : SearchCache)
    (input_text mode : String) :
    List AgentEvent × Except (NodeName × PyErr) (String × SearchCache) :=
  let r := stepGraph be o cache (initialState input_text mode)
  let evs := (r.streamed.map asyncNodeEvents).flatten
  match r.result with
  | .error fe => (evs, .error fe)
  | .ok _ =>
    let final_result := r.streamed.foldl
      (fun acc p => if p.2.1 = StateField.final ∧ p.2.2 ≠ "" then some p.2.2 else acc) none
  (evs, .ok (final_result.getD "", r.cache))

/-- The humanize prompt of `ResearchService.humanize_content`, with the content
substituted for the `{content}` placeholder. -/
def humanizePrompt (content : String) : String :=
  "You are a skilled writer who transforms AI-generated text into natural, warm, and engaging writing.\n\nCRITICAL FORMATTING REQUIREMENT - You MUST use markdown headers with the # symbol:\n- Start with exactly one # Title (main title with single #)\n- Use ## Section Name for 3-5 major sections (double ##)\n- Use ### Subsection for any subsections (triple ###)\n\nExample format:\n# Main Title Here\n\nIntroduction paragraph...\n\n## First Major Section\n\nContent here...\n\n### A Subsection\n\nMore content...\n\n## Second Major Section\n\nAnd so on...\n\nGuidelines for the writing:\n- Use conversational language and a warm tone\n- Remove stiff, corporate phrasing\n- Add natural transitions and human observations\n- Keep the core information intact but make it readable\n- Vary sentence structure for better flow\n- Be conversational but maintain professionalism\n\nContent to humanize:\n" ++ content ++ "\n\nOutput the humanized content. Remember: You MUST use # for title, ## for sections, ### for subsections. Do NOT use bold (**text**) for headers - only use the # markdown syntax."

/-- `ResearchService.humanize_content`: one LLM call on a plain string prompt
(langchain wraps a bare string as a single human message). -/
def humanize_content (be : Backend) (content : String) : Except String String :=
  be.llm [("human", humanizePrompt content)]

/-- The highlight prompt of `ResearchService.highlight_content`, with the
content substituted for the `{content}` placeholder. -/
def highlightPrompt (content : String) : String :=
  "You are a content highlighter. Your task is to identify important terms, key concepts, definitions, and critical phrases in the following content and mark them for highlighting.\n\nGuidelines:\n- Identify key terms and important concepts (3-5 per paragraph)\n- Mark definitions and technical terms\n- Highlight statistics and important data points\n- Mark critical insights and conclusions\n- Use this format: ==TEXT== for text that should be highlighted\n- IMPORTANT: Preserve ALL markdown headers exactly as they are (lines starting with #, ##, or ###)\n- Do NOT highlight text inside headers - only highlight text in paragraphs\n\nThe markers will be converted to pastel color highlights. Be selective - highlight only truly important content (roughly 5-10% of the text).\n\nContent to highlight:\n" ++ content ++ "\n\nOutput the content with ==TEXT== markers around important passages. Keep all markdown headers (# ## ###) exactly as they appear."

/-- `pastel_colors[color_index % len(pastel_colors)]`. -/
def pastelColor (idx : Nat) : String :=
  (["#FFF9C4", "#F8BBD0"].getD (idx % 2) "")

/-- The replacement string `replace_highlight` builds for one `==TEXT==`
match. -/
def highlightSpan (idx : Nat) (text : List Char) : List Char :=
  ("<span style=\"background-color: " ++ pastelColor idx ++
    "; color: #1A1A1A; padding: 2px 4px; border-radius: 3px;\">").toList ++
    text ++ "</span>".toList

/-- Split a character list at the first `==` marker: the characters before it
and the characters after it, or `none` when no marker occurs. -/
def splitOnMarker : List Char → Option (List Char × List Char)
  | [] => none
  | '=' :: '=' :: rest => some ([], rest)
  | c :: rest => (splitOnMarker rest).map (fun p => (c :: p.1, p.2))

/-- The scan of `re.sub(r'==(.*?)==', replace_highlight, highlighted)`:
repeatedly take the next non-greedy `==TEXT==` match and replace it with the
pastel span, alternating the color index; text with no complete match is left
unchanged.  `fuel` bounds the recursion (the input length suffices, as every
match consumes at least four characters).  Known divergence: this scanner
matches a `==...==` pair across newlines, whereas Python's `.` does not cross
a newline (so `==a\nb==` has no match in the source); no theorem depends on
the converted text's content. -/
def subHighlights : Nat → Nat → List Char → List Char
  | 0, _, cs => cs
  | fuel + 1, idx, cs =>
    match splitOnMarker cs with
    | none => cs
    | some (pre, rest1) =>
      match splitOnMarker rest1 with
      | none => cs
      | some (inner, rest2) =>
        pre ++ highlightSpan idx inner ++ subHighlights fuel (idx + 1) rest2

/-- The marker-to-span conversion at the end of `highlight_content`. -/
def convertHighlights (s : String) : String :=
  String.mk (subHighlights (s.length + 1) 0 s.toList)

/-- `ResearchService.highlight_content`: one LLM call on the highlight prompt,
then conversion of the `==...==` markers to pastel spans. -/
def highlight_content (be : Backend) (content : String) : Except String String :=
  (be.llm [("human", highlightPrompt content)]).map convertHighlights

/-- Python `str.strip()` on a character list (whitespace from both ends).
Known divergence: `Char.isWhitespace` covers space, tab, CR and LF, a narrower
set than Python's full Unicode whitespace; the 200-character bound and the
first-clean-line structure are unaffected. -/
def pyStrip (l : List Char) : List Char :=
  ((l.dropWhile Char.isWhitespace).reverse.dropWhile Char.isWhitespace).reverse

/-- One line of `_extract_title`'s loop body:
`line.strip().replace('#', '').strip()`. -/
def cleanLine (l : List Char) : List Char :=
  pyStrip ((pyStrip l).filter (fun c => c ≠ '#'))

/-- The loop of `_extract_title` over the split lines: the first line whose
cleaned form is non-empty, truncated to 200 characters, else the fallback
title. -/
def extractTitleGo : List (List Char) → List Char
  | [] => "Untitled Research".toList
  | line :: rest =>
    let clean := cleanLine line
    if clean ≠ [] then clean.take 200 else extractTitleGo rest

/-- `ResearchService._extract_title` on the character-list view of the content:
split on newlines, return the first cleaned non-empty line capped at 200
characters, or "Untitled Research". -/
def extract_title (content : List Char) : List Char :=
  extractTitleGo (content.splitOn '\n')

/-- `langgraph_callback` inside `ResearchService.generate_research`: an
`agent_start` is forwarded, an `agent_complete` is preceded by a 100% progress
event, and any other event type is dropped (no matching branch). -/
def langgraphCallbackEvents : AgentEvent → List AgentEvent
  | .agent_start a m => [.agent_start a m]
  | .agent_complete a o => [.agent_progress a 100 "", .agent_complete a o]
  | _ => []

/-- The `agent_names` list of `ResearchService.generate_research`. -/
def agent_names : List String :=
  ["Content Strategist", "Blog Writer", "Fact Checker", "Content Editor"]

/-- The deterministic callback-event skeleton of
`ResearchService.generate_research`: the initial strategist start event, the
forwarded pipeline events, the make-sure-complete loop, the two post-processing
progress markers, and the terminal `complete` event — or, when anything inside
the `try` raises, the events emitted so far followed by the single `error`
event carrying `str(e)`.  The daemon progress-animation thread emits only
additional `agent_progress` events on a timer through the same callback — on
the `except` path `running` is never cleared, so such events keep arriving
even after the `error` event; where that matters the full stream is modelled
as an `Interleaving` of this skeleton with a progress-only event list.  The
database write is an external effect; `research_id` stands for the generated
uuid. -/
def generate_research (be : Backend) (o1 o2 : Bool) (cache : SearchCache)
    (input_text _input_type mode research_id : String) : List AgentEvent :=
  AgentEvent.agent_start "Content Strategist" "Searching for recent trends..." ::
  (let r := run_research be o1 o2 cache input_text mode
   let fwd := (r.1.map langgraphCallbackEvents).flatten
   match r.2 with
   | .error fe => fwd ++ [AgentEvent.error fe.2.pyStr]
   | .ok (result, _) =>
     let completed := r.1.filterMap (fun ev => match ev with
       | .agent_complete a _ => some a
       | _ => none)
     let ensure := ((agent_names.filter (fun a => !(completed.contains a))).map
       (fun a => [AgentEvent.agent_progress a 100 "", AgentEvent.agent_complete a ""])).flatten
     fwd ++ ensure ++ [AgentEvent.agent_progress "Content Editor" 100 "Humanizing output..."] ++
     match humanize_content be result with
     | .error e => [AgentEvent.error e]
     | .ok humanized =>
       [AgentEvent.agent_progress "Content Editor" 100 "Adding highlights..."] ++
       match highlight_content be humanized with
       | .error e => [AgentEvent.error e]
       | .ok final_content => [AgentEvent.complete research_id final_content])

/-- The SSE event queue of `stream_events` in `main.py`: `queue.Queue()` with
no maxsize — `put` appends and never blocks or drops.  `none` is the completion
sentinel `run_crew` puts after the service returns. -/
def queuePut (q : List (Option AgentEvent)) (e : Option AgentEvent) :
    List (Option AgentEvent) :=
  q ++ [e]

/-- The queue contents `run_crew` produces: every callback event in order, then
the `None` sentinel. -/
def run_crew_queue (evs : List AgentEvent) : List (Option AgentEvent) :=
  List.foldl queuePut [] (evs.map some ++ [none])

/-- The consumer loop of `stream_events`: yield events from the queue until the
`None` sentinel. -/
def drainQueue : List (Option AgentEvent) → List AgentEvent
  | [] => []
  | none :: _ => []
  | some e :: rest => e :: drainQueue rest

/-- One step of the graph-definition layer: a unique name and the list of
upstream step names it depends on. -/
structure SpecStep where
  name : String
  deps : List String
  deriving DecidableEq, Repr

def stepNames (g : List SpecStep) : List String := g.map SpecStep.name

/-- One round of Kahn's algorithm: append the name of every not-yet-done step
all of whose dependencies are done. -/
def kahnExpand (g : List SpecStep) (done : List String) : List String :=
  done ++ (g.filter (fun s => decide (s.name ∉ done ∧ ∀ d ∈ s.deps, d ∈ done))).map SpecStep.name

def kahnIter (g : List SpecStep) : Nat → List String
  | 0 => []
  | n + 1 => kahnExpand g (kahnIter g n)

/-- The entry frontier: steps with no dependencies. -/
def entrySteps (g : List SpecStep) : List String :=
  (g.filter (fun s => s.deps.isEmpty)).map SpecStep.name

/-- One round of the reachability closure from the entry frontier along
dependency edges (dependency → dependent). -/
def reachExpand (g : List SpecStep) (acc : List String) : List String :=
  acc ++ (g.filter (fun s => decide (s.name ∉ acc ∧ ∃ d ∈ s.deps, d ∈ acc))).map SpecStep.name

def reachIter (g : List SpecStep) : Nat → List String
  | 0 => entrySteps g
  | n + 1 => reachExpand g (reachIter g n)

inductive GraphError where
  | DuplicateStepError
  | UnknownDependencyError
  | CycleError
  | EntryError
  deriving DecidableEq, Repr

/-- An immutable compiled graph: the steps and a completion order certifying
acyclicity. -/
structure CompiledGraph where
  steps : List SpecStep
  order : List String
  deriving DecidableEq, Repr

/-- Modelled from the spec: the graph-definition layer of the DAG-executor core
("add_step ... Fails with DuplicateStepError if name already exists, and with
UnknownDependencyError if any listed dependency is not yet registered";
"finalize(): validates the graph is acyclic (reject with CycleError ...) and
that it has exactly one entry frontier (steps with no dependencies) reachable
to all other steps; returns an immutable compiled graph").  The repository has
no standalone implementation — `build_research_graph` delegates to the external
langgraph library — so the validation is modelled here from the spec's words,
with acyclicity checked by Kahn's algorithm. -/
def finalize (g : List SpecStep) : Except GraphError CompiledGraph :=
  if ¬ (stepNames g).Nodup then .error .DuplicateStepError
  else if ¬ (∀ s ∈ g, ∀ d ∈ s.deps, d ∈ stepNames g) then .error .UnknownDependencyError
  else if ¬ (∀ s ∈ g, s.name ∈ kahnIter g g.length) then .error .CycleError
  else if ¬ ((entrySteps g).length = 1 ∧ ∀ s ∈ g, s.name ∈ reachIter g g.length) then
    .error .EntryError
  else .ok ⟨g, kahnIter g g.length⟩

/-- A non-empty dependency path: `DepPath g a b` when one can walk from `a` to
`b` along edges that lead from a dependency to a step depending on it. -/
inductive DepPath (g : List SpecStep) : String → String → Prop where
  | edge (s : SpecStep) (hs : s ∈ g) (d : String) (hd : d ∈ s.deps) : DepPath g d s.name
  | tail (a : String) (s : SpecStep) (hs : s ∈ g) (b : String) (hb : b ∈ s.deps)
      (h : DepPath g a b) : DepPath g a s.name

/-- A cycle: a non-empty dependency path from some name back to itself. -/
def HasCycle (g : List SpecStep) : Prop := ∃ a, DepPath g a a

/-- A topological order of the whole graph: a permutation of the step names in
which every dependency comes strictly before its dependent. -/
def IsTopoOrder (g : List SpecStep) (ord : List String) : Prop :=
  ord.Perm (stepNames g) ∧ ∀ s ∈ g, ∀ d ∈ s.deps, ord.indexOf d < ord.indexOf s.name

def Acyclic (g : List SpecStep) : Prop := ∃ ord, IsTopoOrder g ord

/-- A well-formed graph in the spec's sense: unique step names, all
dependencies declared, acyclic, and exactly one entry frontier from which every
step is reachable. -/
def WellFormed (g : List SpecStep) : Prop :=
  (stepNames g).Nodup ∧ (∀ s ∈ g, ∀ d ∈ s.deps, d ∈ stepNames g) ∧ Acyclic g ∧
    (entrySteps g).length = 1 ∧ ∀ s ∈ g, s.name ∈ reachIter g g.length

/-- The graph built by `build_research_graph`, read off its `add_edge` calls:
START → strategist → writer → {fact_checker, editor} → merge. -/
def researchGraphDef : List SpecStep :=
  [⟨"strategist", []⟩, ⟨"writer", ["strategist"]⟩, ⟨"fact_checker", ["writer"]⟩,
   ⟨"editor", ["writer"]⟩, ⟨"merge", ["fact_checker", "editor"]⟩]

theorem ResearchState.set_apply (s : ResearchState) (f : StateField) (v : String)
    (g : StateField) : s.set f v g = if g = f then some v else s g := rfl

theorem ResearchState.set_comm (s : ResearchState) {f g : StateField} (hne : f ≠ g)
    (v w : String) : (s.set f v).set g w = (s.set g w).set f v := by
  funext x
  have hgf : g ≠ f := fun h => hne h.symm
  by_cases hg : x = g
  · by_cases hf : x = f
    · exact absurd (hf ▸ hg) hne
    · simp [ResearchState.set, hg, hf, hgf]
  · by_cases hf : x = f
    · simp [ResearchState.set, hg, hf, hne]
    · simp [ResearchState.set, hg, hf]

/-- A cache is consistent when every entry is the fresh search result for its
query; the empty cache of module load time is consistent, and every run
preserves consistency. -/
def CacheOK (be : Backend) (c : SearchCache) : Prop :=
  ∀ q r, (q, r) ∈ c → r = freshSearch be q

theorem CacheOK.nil (be : Backend) : CacheOK be [] := by
  intro q r h
  cases h

theorem CacheOK.lookup_eq {be : Backend} {c : SearchCache} (hc : CacheOK be c)
    {q r : String} (h : c.lookup q = some r) : r = freshSearch be q := by
  induction c with
  | nil => cases h
  | cons e t ih =>
    obtain ⟨k, b⟩ := e
    by_cases hq : (q == k) = true
    · have hqe : q = k := eq_of_beq hq
      simp only [List.lookup_cons, hq] at h
      cases h
      rw [hqe]
      exact hc k r (by simp)
    · have hq' : (q == k) = false := by
        cases hb : q == k
        · rfl
        · exact absurd hb hq
      simp only [List.lookup_cons, hq'] at h
      exact ih (fun q' r' hm => hc q' r' (List.mem_cons_of_mem _ hm)) h

theorem duckduckgo_search_fst {be : Backend} {c : SearchCache} (hc : CacheOK be c)
    (q : String) : (duckduckgo_search be c q).1 = freshSearch be q := by
  unfold duckduckgo_search
  cases h : c.lookup q with
  | none => rfl
  | some r => simpa using (hc.lookup_eq h)

theorem duckduckgo_search_cacheOK {be : Backend} {c : SearchCache} (hc : CacheOK be c)
    (q : String) : CacheOK be (duckduckgo_search be c q).2 := by
  unfold duckduckgo_search
  cases h : c.lookup q with
  | none =>
    intro q' r' hm
    rcases List.mem_cons.mp hm with he | ht
    · cases he
      rfl
    · exact hc q' r' ht
  | some r => exact hc


theorem exceptBind_ok {α β : Type} (a : α) (f : α → Except PyErr β) :
    (Except.ok a >>= f) = f a := rfl

theorem exceptBind_error {α β : Type} (e : PyErr) (f : α → Except PyErr β) :
    ((Except.error e : Except PyErr α) >>= f) = Except.error e := rfl

theorem exceptMap_ok {α β ε : Type} (f : α → β) (a : α) :
    Except.map f (Except.ok a : Except ε α) = Except.ok (f a) := rfl

theorem exceptMap_error {α β ε : Type} (f : α → β) (e : ε) :
    Except.map f (Except.error e : Except ε α) = Except.error e := rfl

theorem strategist_node_congr {be : Backend} {c c' : SearchCache} (hc : CacheOK be c)
    (hc' : CacheOK be c') (s : ResearchState) :
    (strategist_node be c s).1 = (strategist_node be c' s).1 ∧
      CacheOK be (strategist_node be c s).2 := by
  cases h1 : s.getItem .input with
  | error e =>
    constructor
    · simp only [strategist_node, h1]
    · simp only [strategist_node, h1]
      exact hc
  | ok topic =>
    cases h2 : s.getItem .mode with
    | error e =>
      constructor
      · simp only [strategist_node, h1, h2]
      · simp only [strategist_node, h1, h2]
        exact hc
    | ok mode =>
      have f1 := duckduckgo_search_fst hc (topic ++ " 2026")
      have o1 := duckduckgo_search_cacheOK hc (topic ++ " 2026")
      have f2 := duckduckgo_search_fst o1 (topic ++ " latest news")
      have o2 := duckduckgo_search_cacheOK o1 (topic ++ " latest news")
      have f3 := duckduckgo_search_fst o2 (topic ++ " trends 2025 2026")
      have o3 := duckduckgo_search_cacheOK o2 (topic ++ " trends 2025 2026")
      have f1' := duckduckgo_search_fst hc' (topic ++ " 2026")
      have o1' := duckduckgo_search_cacheOK hc' (topic ++ " 2026")
      have f2' := duckduckgo_search_fst o1' (topic ++ " latest news")
      have o2' := duckduckgo_search_cacheOK o1' (topic ++ " latest news")
      have f3' := duckduckgo_search_fst o2' (topic ++ " trends 2025 2026")
      constructor
      · simp only [strategist_node, h1, h2]
        rw [f1, f2, f3, f1', f2', f3']
      · simp only [strategist_node, h1, h2]
        exact o3

theorem fact_checker_node_congr {be : Backend} {c c' : SearchCache} (hc : CacheOK be c)
    (hc' : CacheOK be c') (s : ResearchState) :
    (fact_checker_node be c s).1 = (fact_checker_node be c' s).1 ∧
      CacheOK be (fact_checker_node be c s).2 := by
  cases h1 : s.getItem .mode with
  | error e =>
    constructor
    · simp only [fact_checker_node, h1]
    · simp only [fact_checker_node, h1]
      exact hc
  | ok mode =>
    cases h2 : s.getItem .draft with
    | error e =>
      constructor
      · simp only [fact_checker_node, h1, h2]
      · simp only [fact_checker_node, h1, h2]
        exact hc
    | ok draft =>
      cases h3 : liftLLM (be.llm [("system", extractClaimsSystem), ("human", draft)]) with
      | error e =>
        constructor
        · simp only [fact_checker_node, h1, h2, h3]
        · simp only [fact_checker_node, h1, h2, h3]
          exact hc
      | ok _claims =>
        cases h4 : s.getItem .input with
        | error e =>
          constructor
          · simp only [fact_checker_node, h1, h2, h3, h4]
          · simp only [fact_checker_node, h1, h2, h3, h4]
            exact hc
        | ok topic =>
          have fv := duckduckgo_search_fst hc ("verify " ++ topic ++ " facts statistics")
          have ov := duckduckgo_search_cacheOK hc ("verify " ++ topic ++ " facts statistics")
          have fv' := duckduckgo_search_fst hc' ("verify " ++ topic ++ " facts statistics")
          constructor
          · simp only [fact_checker_node, h1, h2, h3, h4]
            rw [fv, fv']
          · simp only [fact_checker_node, h1, h2, h3, h4]
            exact ov

theorem fact_checker_node_field {be : Backend} {c : SearchCache} {s : ResearchState}
    {u : StateField × String} {c2 : SearchCache}
    (h : fact_checker_node be c s = (.ok u, c2)) : u.1 = StateField.fact_checked := by
  unfold fact_checker_node at h
  cases h1 : s.getItem .mode with
  | error e => simp [h1] at h
  | ok mode =>
    simp only [h1] at h
    cases h2 : s.getItem .draft with
    | error e => simp [h2] at h
    | ok draft =>
      simp only [h2] at h
      cases h3 : liftLLM (be.llm [("system", extractClaimsSystem), ("human", draft)]) with
      | error e => simp [h3] at h
      | ok _claims =>
        simp only [h3] at h
        cases h4 : s.getItem .input with
        | error e => simp [h4] at h
        | ok topic =>
          simp only [h4] at h
          cases h5 : be.llm [("system", factCheckerSystem),
              ("human", get_fact_checker_prompt mode ++ "\n\nContent to fact-check:\n" ++
                draft ++ "\n\nVerification search results:\n" ++
                (duckduckgo_search be c ("verify " ++ topic ++ " facts statistics")).1)] with
          | error e => simp [h5, liftLLM, Except.mapError, exceptMap_error] at h
          | ok v =>
            simp only [h5, liftLLM, Except.mapError, exceptMap_ok] at h
            obtain ⟨rfl, -⟩ := h
            rfl

theorem editor_node_field {be : Backend} {s : ResearchState} {u : StateField × String}
    (h : editor_node be s = .ok u) : u.1 = StateField.edited := by
  unfold editor_node at h
  cases h1 : s.getItem .mode with
  | error e => simp [h1, exceptBind_error] at h
  | ok mode =>
    simp only [h1, exceptBind_ok] at h
    cases h2 : s.getItem .draft with
    | error e => simp [h2, exceptBind_error] at h
    | ok draft =>
      simp only [h2, exceptBind_ok] at h
      cases h3 : liftLLM (be.llm [("system", editorSystem),
          ("human", get_editor_prompt mode ++ "\n\nContent to edit:\n" ++ draft)]) with
      | error e => simp [h3, exceptBind_error] at h
      | ok v =>
        simp only [h3, exceptBind_ok] at h
        cases h
        rfl

theorem stepGraph_cache_congr (be : Backend) {c c' : SearchCache} (hc : CacheOK be c)
    (hc' : CacheOK be c') (o : Bool) (s0 : ResearchState) :
    (stepGraph be o c s0).result = (stepGraph be o c' s0).result ∧
      (stepGraph be o c s0).streamed = (stepGraph be o c' s0).streamed ∧
      (stepGraph be o c s0).started = (stepGraph be o c' s0).started ∧
      CacheOK be (stepGraph be o c s0).cache := by
  obtain ⟨hs1, ho1⟩ := strategist_node_congr hc hc' s0
  obtain ⟨-, ho1'⟩ := strategist_node_congr hc' hc s0
  rcases hA : strategist_node be c s0 with ⟨r1, d1⟩
  rcases hB : strategist_node be c' s0 with ⟨r1', d1'⟩
  rw [hA, hB] at hs1
  rw [hA] at ho1
  rw [hB] at ho1'
  have hr : r1 = r1' := hs1
  subst hr
  cases r1 with
  | error e =>
    refine ⟨by simp [stepGraph, hA, hB], by simp [stepGraph, hA, hB],
      by simp [stepGraph, hA, hB], ?_⟩
    simpa [stepGraph, hA] using ho1
  | ok u1 =>
    cases hW : writer_node be ((s0.set u1.1 u1.2)) with
    | error e =>
      refine ⟨by simp [stepGraph, hA, hB, hW], by simp [stepGraph, hA, hB, hW],
        by simp [stepGraph, hA, hB, hW], ?_⟩
      simpa [stepGraph, hA, hW] using ho1
    | ok u2 =>
      obtain ⟨hfc, hofc⟩ :=
        fact_checker_node_congr ho1 ho1' (((s0.set u1.1 u1.2)).set u2.1 u2.2)
      rcases hF : fact_checker_node be d1 (((s0.set u1.1 u1.2)).set u2.1 u2.2) with ⟨rF, dF⟩
      rcases hF' : fact_checker_node be d1' (((s0.set u1.1 u1.2)).set u2.1 u2.2) with ⟨rF', dF'⟩
      rw [hF, hF'] at hfc
      rw [hF] at hofc
      have hrF : rF = rF' := hfc
      subst hrF
      cases rF with
      | error e =>
        refine ⟨by simp [stepGraph, hA, hB, hW, hF, hF'], by simp [stepGraph, hA, hB, hW, hF, hF'],
          by simp [stepGraph, hA, hB, hW, hF, hF'], ?_⟩
        simpa [stepGraph, hA, hW, hF] using hofc
      | ok uF =>
        cases hE : editor_node be (((s0.set u1.1 u1.2)).set u2.1 u2.2) with
        | error e =>
          refine ⟨by simp [stepGraph, hA, hB, hW, hF, hF', hE],
            by simp [stepGraph, hA, hB, hW, hF, hF', hE],
            by simp [stepGraph, hA, hB, hW, hF, hF', hE], ?_⟩
          simpa [stepGraph, hA, hW, hF, hE] using hofc
        | ok uE =>
          cases hM : merge_node be
              (if o then (((((s0.set u1.1 u1.2)).set u2.1 u2.2).set uF.1 uF.2).set uE.1 uE.2)
               else (((((s0.set u1.1 u1.2)).set u2.1 u2.2).set uE.1 uE.2).set uF.1 uF.2)) with
          | error e =>
            refine ⟨by simp [stepGraph, hA, hB, hW, hF, hF', hE, hM],
              by simp [stepGraph, hA, hB, hW, hF, hF', hE, hM],
              by simp [stepGraph, hA, hB, hW, hF, hF', hE, hM], ?_⟩
            simpa [stepGraph, hA, hW, hF, hE, hM] using hofc
          | ok u4 =>
            refine ⟨by simp [stepGraph, hA, hB, hW, hF, hF', hE, hM],
              by simp [stepGraph, hA, hB, hW, hF, hF', hE, hM],
              by simp [stepGraph, hA, hB, hW, hF, hF', hE, hM], ?_⟩
            simpa [stepGraph, hA, hW, hF, hE, hM] using hofc

theorem stepGraph_order_congr (be : Backend) (c : SearchCache) (o o' : Bool)
    (s0 : ResearchState) :
    (stepGraph be o c s0).result = (stepGraph be o' c s0).result ∧
      (stepGraph be o c s0).started = (stepGraph be o' c s0).started ∧
      (stepGraph be o c s0).cache = (stepGraph be o' c s0).cache := by
  rcases hA : strategist_node be c s0 with ⟨r1, d1⟩
  cases r1 with
  | error e =>
    exact ⟨by simp [stepGraph, hA], by simp [stepGraph, hA], by simp [stepGraph, hA]⟩
  | ok u1 =>
    cases hW : writer_node be ((s0.set u1.1 u1.2)) with
    | error e =>
      exact ⟨by simp [stepGraph, hA, hW], by simp [stepGraph, hA, hW],
        by simp [stepGraph, hA, hW]⟩
    | ok u2 =>
      rcases hF : fact_checker_node be d1 (((s0.set u1.1 u1.2)).set u2.1 u2.2) with ⟨rF, dF⟩
      cases rF with
      | error e =>
        exact ⟨by simp [stepGraph, hA, hW, hF], by simp [stepGraph, hA, hW, hF],
          by simp [stepGraph, hA, hW, hF]⟩
      | ok uF =>
        cases hE : editor_node be (((s0.set u1.1 u1.2)).set u2.1 u2.2) with
        | error e =>
          exact ⟨by simp [stepGraph, hA, hW, hF, hE], by simp [stepGraph, hA, hW, hF, hE],
            by simp [stepGraph, hA, hW, hF, hE]⟩
        | ok uE =>
          have hFf : uF.1 = StateField.fact_checked := fact_checker_node_field hF
          have hEf : uE.1 = StateField.edited := editor_node_field hE
          have hne : uF.1 ≠ uE.1 := by
            rw [hFf, hEf]
            intro hx
            cases hx
          have hcomm :
              (((((s0.set u1.1 u1.2)).set u2.1 u2.2).set uF.1 uF.2).set uE.1 uE.2)
                = (((((s0.set u1.1 u1.2)).set u2.1 u2.2).set uE.1 uE.2).set uF.1 uF.2) :=
            ResearchState.set_comm _ hne _ _
          have hs3 : ∀ b : Bool,
              (if b then (((((s0.set u1.1 u1.2)).set u2.1 u2.2).set uF.1 uF.2).set uE.1 uE.2)
               else (((((s0.set u1.1 u1.2)).set u2.1 u2.2).set uE.1 uE.2).set uF.1 uF.2))
                = (((((s0.set u1.1 u1.2)).set u2.1 u2.2).set uF.1 uF.2).set uE.1 uE.2) := by
            intro b
            rw [← hcomm]
            simp
          cases hM : merge_node be
              ((((((s0.set u1.1 u1.2)).set u2.1 u2.2).set uF.1 uF.2).set uE.1 uE.2)) with
          | error e =>
            exact ⟨by simp [stepGraph, hA, hW, hF, hE, hs3, hM],
              by simp [stepGraph, hA, hW, hF, hE, hs3, hM],
              by simp [stepGraph, hA, hW, hF, hE, hs3, hM]⟩
          | ok u4 =>
            exact ⟨by simp [stepGraph, hA, hW, hF, hE, hs3, hM],
              by simp [stepGraph, hA, hW, hF, hE, hs3, hM],
              by simp [stepGraph, hA, hW, hF, hE, hs3, hM]⟩

theorem strategist_node_ok (be : Backend) (lf : List (String × String) → String)
    (hok : ∀ m, be.llm m = Except.ok (lf m)) (c : SearchCache) (s : ResearchState)
    {input mode : String} (hin : s StateField.input = some input)
    (hmode : s StateField.mode = some mode) :
    ∃ v c', strategist_node be c s = (Except.ok (StateField.research, v), c') := by
  simp only [strategist_node, ResearchState.getItem, hin, hmode, hok, liftLLM,
    Except.mapError, exceptMap_ok]
  exact ⟨_, _, rfl⟩

theorem writer_node_ok (be : Backend) (lf : List (String × String) → String)
    (hok : ∀ m, be.llm m = Except.ok (lf m)) (s : ResearchState)
    {mode research : String} (hmode : s StateField.mode = some mode)
    (hres : s StateField.research = some research) :
    ∃ v, writer_node be s = Except.ok (StateField.draft, v) := by
  simp only [writer_node, ResearchState.getItem, hmode, hres, hok, liftLLM,
    Except.mapError, exceptBind_ok]
  exact ⟨_, rfl⟩

theorem fact_checker_node_ok (be : Backend) (lf : List (String × String) → String)
    (hok : ∀ m, be.llm m = Except.ok (lf m)) (c : SearchCache) (s : ResearchState)
    {input mode draft : String} (hmode : s StateField.mode = some mode)
    (hdraft : s StateField.draft = some draft) (hin : s StateField.input = some input) :
    ∃ v c', fact_checker_node be c s = (Except.ok (StateField.fact_checked, v), c') := by
  simp only [fact_checker_node, ResearchState.getItem, hmode, hdraft, hin, hok, liftLLM,
    Except.mapError, exceptMap_ok]
  exact ⟨_, _, rfl⟩

theorem editor_node_ok (be : Backend) (lf : List (String × String) → String)
    (hok : ∀ m, be.llm m = Except.ok (lf m)) (s : ResearchState)
    {mode draft : String} (hmode : s StateField.mode = some mode)
    (hdraft : s StateField.draft = some draft) :
    ∃ v, editor_node be s = Except.ok (StateField.edited, v) := by
  simp only [editor_node, ResearchState.getItem, hmode, hdraft, hok, liftLLM,
    Except.mapError, exceptBind_ok]
  exact ⟨_, rfl⟩

theorem merge_node_ok (be : Backend) (lf : List (String × String) → String)
    (hok : ∀ m, be.llm m = Except.ok (lf m)) (s : ResearchState) :
    merge_node be s = Except.ok (StateField.final,
      lf (mergeMessages (s.pyGet .fact_checked "") (s.pyGet .edited ""))) := by
  simp only [merge_node, hok, liftLLM, Except.mapError, exceptMap_ok]

theorem stepGraph_spec (be : Backend) (lf : List (String × String) → String)
    (hok : ∀ m, be.llm m = Except.ok (lf m)) (o : Bool) (c : SearchCache)
    (s0 : ResearchState) {input mode : String}
    (hin : s0 StateField.input = some input) (hmode : s0 StateField.mode = some mode) :
    ∃ research draft fc ed fin s',
      (stepGraph be o c s0).result = Except.ok s' ∧
      (stepGraph be o c s0).streamed =
        [(NodeName.strategist, StateField.research, research),
         (NodeName.writer, StateField.draft, draft)] ++
        (if o then [(NodeName.fact_checker, StateField.fact_checked, fc),
                    (NodeName.editor, StateField.edited, ed)]
         else [(NodeName.editor, StateField.edited, ed),
               (NodeName.fact_checker, StateField.fact_checked, fc)]) ++
        [(NodeName.merge, StateField.final, fin)] ∧
      s' StateField.input = some input ∧ s' StateField.mode = some mode ∧
      s' StateField.research = some research ∧ s' StateField.draft = some draft ∧
      s' StateField.fact_checked = some fc ∧ s' StateField.edited = some ed ∧
      s' StateField.final = some fin ∧ fin = lf (mergeMessages fc ed) := by
  obtain ⟨RS, C1, hS⟩ := strategist_node_ok be lf hok c s0 hin hmode
  have h1mode : (s0.set StateField.research RS) StateField.mode = some mode := by
    simp [ResearchState.set, hmode]
  have h1res : (s0.set StateField.research RS) StateField.research = some RS := by
    simp [ResearchState.set]
  obtain ⟨D, hW⟩ := writer_node_ok be lf hok (s0.set StateField.research RS) h1mode h1res
  have h2in : ((s0.set StateField.research RS).set StateField.draft D) StateField.input
      = some input := by simp [ResearchState.set, hin]
  have h2mode : ((s0.set StateField.research RS).set StateField.draft D) StateField.mode
      = some mode := by simp [ResearchState.set, hmode]
  have h2draft : ((s0.set StateField.research RS).set StateField.draft D) StateField.draft
      = some D := by simp [ResearchState.set]
  obtain ⟨FC, C2, hF⟩ := fact_checker_node_ok be lf hok C1
    ((s0.set StateField.research RS).set StateField.draft D) h2mode h2draft h2in
  obtain ⟨ED, hE⟩ := editor_node_ok be lf hok
    ((s0.set StateField.research RS).set StateField.draft D) h2mode h2draft
  cases o with
  | true =>
    have hM := merge_node_ok be lf hok
      ((((s0.set StateField.research RS).set StateField.draft D).set
        StateField.fact_checked FC).set StateField.edited ED)
    have hgfc : ((((s0.set StateField.research RS).set StateField.draft D).set
        StateField.fact_checked FC).set StateField.edited ED).pyGet .fact_checked "" = FC := by
      simp [ResearchState.pyGet, ResearchState.set]
    have hged : ((((s0.set StateField.research RS).set StateField.draft D).set
        StateField.fact_checked FC).set StateField.edited ED).pyGet .edited "" = ED := by
      simp [ResearchState.pyGet, ResearchState.set]
    rw [hgfc, hged] at hM
    refine ⟨RS, D, FC, ED, lf (mergeMessages FC ED),
      (((((s0.set StateField.research RS).set StateField.draft D).set
        StateField.fact_checked FC).set StateField.edited ED).set StateField.final
          (lf (mergeMessages FC ED))),
      ?_, ?_, ?_, ?_, ?_, ?_, ?_, ?_, ?_, rfl⟩
    · simp [stepGraph, hS, hW, hF, hE, hM]
    · simp [stepGraph, hS, hW, hF, hE, hM]
    · simp [ResearchState.set, hin]
    · simp [ResearchState.set, hmode]
    · simp [ResearchState.set]
    · simp [ResearchState.set]
    · simp [ResearchState.set]
    · simp [ResearchState.set]
    · simp [ResearchState.set]
  | false =>
    have hM := merge_node_ok be lf hok
      ((((s0.set StateField.research RS).set StateField.draft D).set
        StateField.edited ED).set StateField.fact_checked FC)
    have hgfc : ((((s0.set StateField.research RS).set StateField.draft D).set
        StateField.edited ED).set StateField.fact_checked FC).pyGet .fact_checked "" = FC := by
      simp [ResearchState.pyGet, ResearchState.set]
    have hged : ((((s0.set StateField.research RS).set StateField.draft D).set
        StateField.edited ED).set StateField.fact_checked FC).pyGet .edited "" = ED := by
      simp [ResearchState.pyGet, ResearchState.set]
    rw [hgfc, hged] at hM
    refine ⟨RS, D, FC, ED, lf (mergeMessages FC ED),
      (((((s0.set StateField.research RS).set StateField.draft D).set
        StateField.edited ED).set StateField.fact_checked FC).set StateField.final
          (lf (mergeMessages FC ED))),
      ?_, ?_, ?_, ?_, ?_, ?_, ?_, ?_, ?_, rfl⟩
    · simp [stepGraph, hS, hW, hF, hE, hM]
    · simp [stepGraph, hS, hW, hF, hE, hM]
    · simp [ResearchState.set, hin]
    · simp [ResearchState.set, hmode]
    · simp [ResearchState.set]
    · simp [ResearchState.set]
    · simp [ResearchState.set]
    · simp [ResearchState.set]
    · simp [ResearchState.set]

/-- The first line, in order, whose cleaned form is non-empty. -/
def firstNonemptyClean (ls : List (List Char)) : Option (List Char) :=
  ((ls.map cleanLine).filter (fun l => !l.isEmpty)).head?

theorem extractTitleGo_eq (ls : List (List Char)) :
    extractTitleGo ls =
      match firstNonemptyClean ls with
      | some cl => cl.take 200
      | none => "Untitled Research".toList := by
  induction ls with
  | nil => rfl
  | cons l t ih =>
    by_cases h : cleanLine l = []
    · simp [extractTitleGo, firstNonemptyClean, h] at ih ⊢
      exact ih
    · have h' : (cleanLine l).isEmpty = false := by
        cases hx : cleanLine l
        · exact absurd hx h
        · rfl
      simp [extractTitleGo, firstNonemptyClean, h, h']

/-- C10: `_extract_title` returns a string of at most 200 characters: the first
line of the content that is non-empty once every '#' character and the
surrounding whitespace are removed (cleaned and truncated to 200 characters),
and the fallback "Untitled Research" when no such line exists (for example on
empty or whitespace/'#'-only input). -/
theorem c10_extract_title_spec (content : List Char) :
    (extract_title content).length ≤ 200 ∧
      extract_title content =
        (match firstNonemptyClean (content.splitOn '\n') with
         | some cl => cl.take 200
         | none => "Untitled Research".toList) := by
  have heq := extractTitleGo_eq (content.splitOn '\n')
  refine ⟨?_, heq⟩
  rw [show extract_title content = extractTitleGo (content.splitOn '\n') from rfl, heq]
  cases firstNonemptyClean (content.splitOn '\n') with
  | none => decide
  | some cl =>
    simp only [List.length_take]
    exact min_le_left _ _

theorem foldl_queuePut_eq (q : List (Option AgentEvent)) (l : List (Option AgentEvent)) :
    List.foldl queuePut q l = q ++ l := by
  induction l generalizing q with
  | nil => simp
  | cons e t ih => simp [queuePut, ih]

theorem drainQueue_map_some (evs : List AgentEvent) :
    drainQueue (evs.map some ++ [none]) = evs := by
  induction evs with
  | nil => rfl
  | cons e t ih => simp [drainQueue, ih]

/-- C8 counterexample: the SSE buffer is `queue.Queue()` with no maxsize — its
length after n puts is n for every n, so there is no bounded capacity and no
oldest-first dropping of excess progress events (nothing is ever dropped). -/
theorem c8_counterexample :
    ¬ ∃ cap : Nat, ∀ evs : List AgentEvent,
        (List.foldl queuePut [] (evs.map some)).length ≤ cap := by
  rintro ⟨cap, hcap⟩
  have h := hcap (List.replicate (cap + 1) (AgentEvent.agent_progress "Content Strategist" 50 ""))
  rw [foldl_queuePut_eq] at h
  simp at h

/-- C8 (amended): step execution never waits on the consumer because the event
queue is unbounded (`queue.Queue()` with no maxsize, `put` always appends):
no event — progress or terminal — is ever dropped, and the consumer loop
delivers every event put before the `None` sentinel, in order; in particular
every terminal `complete`/`error` event put into the buffer is delivered. -/
theorem c8_amended_unbounded_queue_delivers_all (evs : List AgentEvent) :
    drainQueue (run_crew_queue evs) = evs ∧
      ∀ e, e ∈ evs → e ∈ drainQueue (run_crew_queue evs) := by
  have h : drainQueue (run_crew_queue evs) = evs := by
    rw [run_crew_queue, foldl_queuePut_eq, List.nil_append, drainQueue_map_some]
  exact ⟨h, fun e he => by rw [h]; exact he⟩

/-- C8 amended witness at a concrete event list containing a terminal event. -/
theorem c8_amended_witness :
    drainQueue (run_crew_queue [AgentEvent.agent_progress "Blog Writer" 50 "",
        AgentEvent.complete "id" "content"]) =
      [AgentEvent.agent_progress "Blog Writer" 50 "", AgentEvent.complete "id" "content"] ∧
      AgentEvent.complete "id" "content" ∈ drainQueue (run_crew_queue
        [AgentEvent.agent_progress "Blog Writer" 50 "", AgentEvent.complete "id" "content"]) :=
  ⟨(c8_amended_unbounded_queue_delivers_all _).1,
    (c8_amended_unbounded_queue_delivers_all _).2 _ (by simp)⟩

/-- A deterministic backend whose LLM always answers "x" and whose search finds
nothing, used to instantiate the universally quantified theorems. -/
def constBackend : Backend := ⟨fun _ => [], fun _ => Except.ok "x"⟩

/-- C1: for every run of the research pipeline on an initial State containing
`input` and `mode` (with an LLM backend whose calls return normally), the run
succeeds and the final State carries values for `research`, `draft`,
`fact_checked`, `edited` and `final`; the `final` value is the merge step's
LLM output over the messages built from *both* the fact-checker's output and
the editor's output; and the final State is the same whichever of the two
parallel branches completes (is merged) first. -/
theorem c1_final_state_from_both_branches (be : Backend)
    (lf : List (String × String) → String)
    (hok : ∀ m, be.llm m = Except.ok (lf m)) (o : Bool) (c : SearchCache)
    (s0 : ResearchState) (input mode : String)
    (hin : s0 StateField.input = some input) (hmode : s0 StateField.mode = some mode) :
    (∃ s' research draft fc ed fin,
      (stepGraph be o c s0).result = Except.ok s' ∧
      s' StateField.research = some research ∧ s' StateField.draft = some draft ∧
      s' StateField.fact_checked = some fc ∧ s' StateField.edited = some ed ∧
      s' StateField.final = some fin ∧ fin = lf (mergeMessages fc ed)) ∧
    (stepGraph be true c s0).result = (stepGraph be false c s0).result := by
  constructor
  · obtain ⟨R, D, FC, ED, FIN, s', h1, -, -, -, h5, h6, h7, h8, h9, h10⟩ :=
      stepGraph_spec be lf hok o c s0 hin hmode
    exact ⟨s', R, D, FC, ED, FIN, h1, h5, h6, h7, h8, h9, h10⟩
  · exact (stepGraph_order_congr be c true false s0).1

/-- C1 witness at a concrete backend and initial state. -/
theorem c1_witness :
    (∀ m, constBackend.llm m = Except.ok "x") ∧
    (initialState "solar" "analytical") StateField.input = some "solar" ∧
    ((∃ s' research draft fc ed fin,
      (stepGraph constBackend true [] (initialState "solar" "analytical")).result
          = Except.ok s' ∧
      s' StateField.research = some research ∧ s' StateField.draft = some draft ∧
      s' StateField.fact_checked = some fc ∧ s' StateField.edited = some ed ∧
      s' StateField.final = some fin ∧ fin = "x") ∧
    (stepGraph constBackend true [] (initialState "solar" "analytical")).result
        = (stepGraph constBackend false [] (initialState "solar" "analytical")).result) :=
  ⟨fun _ => rfl, rfl,
    c1_final_state_from_both_branches constBackend (fun _ => "x") (fun _ => rfl) true []
      (initialState "solar" "analytical") "solar" "analytical" rfl rfl⟩

/-- C2: with fixed deterministic step functions (the backend), two runs of the
pipeline on the same inputs produce the same final State, whatever the merge
order of the two parallel branches and whatever consistent state the module
search cache is in at the start of each run (intermediate events do not feed
back into the State, so their interleaving cannot affect it); the string the
sync `run_research` returns is likewise identical across runs. -/
theorem c2_deterministic_final_state (be : Backend) (c c' : SearchCache)
    (hc : CacheOK be c) (hc' : CacheOK be c') (o1 o2 o1' o2' : Bool)
    (s0 : ResearchState) (i m : String) :
    (stepGraph be o1 c s0).result = (stepGraph be o1' c' s0).result ∧
      (run_research be o1 o2 c i m).2.map Prod.fst
        = (run_research be o1' o2' c' i m).2.map Prod.fst := by
  have chain : ∀ (a a' : Bool) (d d' : SearchCache), CacheOK be d → CacheOK be d' →
      ∀ t : ResearchState, (stepGraph be a d t).result = (stepGraph be a' d' t).result := by
    intro a a' d d' hd hd' t
    calc (stepGraph be a d t).result
        = (stepGraph be a d' t).result := (stepGraph_cache_congr be hd hd' a t).1
      _ = (stepGraph be a' d' t).result := (stepGraph_order_congr be d' a a' t).1
  refine ⟨chain o1 o1' c c' hc hc' s0, ?_⟩
  have hX := chain o1 o1' c c' hc hc' (initialState i m)
  have hcX : CacheOK be (stepGraph be o1 c (initialState i m)).cache :=
    (stepGraph_cache_congr be hc hc o1 (initialState i m)).2.2.2
  have hcX' : CacheOK be (stepGraph be o1' c' (initialState i m)).cache :=
    (stepGraph_cache_congr be hc' hc' o1' (initialState i m)).2.2.2
  have hY := chain o2 o2' (stepGraph be o1 c (initialState i m)).cache
    (stepGraph be o1' c' (initialState i m)).cache hcX hcX' (initialState i m)
  unfold run_research
  cases hr : (stepGraph be o1 c (initialState i m)).result with
  | error fe =>
    have hr' : (stepGraph be o1' c' (initialState i m)).result = Except.error fe := by
      rw [← hX, hr]
    simp [hr, hr']
  | ok s =>
    have hr' : (stepGraph be o1' c' (initialState i m)).result = Except.ok s := by
      rw [← hX, hr]
    cases hs : (stepGraph be o2 (stepGraph be o1 c (initialState i m)).cache
        (initialState i m)).result with
    | error fe =>
      have hs' : (stepGraph be o2' (stepGraph be o1' c' (initialState i m)).cache
          (initialState i m)).result = Except.error fe := by rw [← hY, hs]
      simp [hr, hr', hs, hs']
    | ok s2 =>
      have hs' : (stepGraph be o2' (stepGraph be o1' c' (initialState i m)).cache
          (initialState i m)).result = Except.ok s2 := by rw [← hY, hs]
      simp [hr, hr', hs, hs', exceptMap_ok]

/-- C2 witness at a concrete backend, two different branch orders and two
consistent caches (the empty cache and a cache already holding a fresh
entry). -/
theorem c2_witness :
    CacheOK constBackend [] ∧
    CacheOK constBackend [("q", freshSearch constBackend "q")] ∧
    ((stepGraph constBackend true [] (initialState "t" "gen-z")).result
        = (stepGraph constBackend false [("q", freshSearch constBackend "q")]
            (initialState "t" "gen-z")).result ∧
      (run_research constBackend true true [] "t" "gen-z").2.map Prod.fst
        = (run_research constBackend false false [("q", freshSearch constBackend "q")]
            "t" "gen-z").2.map Prod.fst) := by
  have h1 : CacheOK constBackend [] := CacheOK.nil _
  have h2 : CacheOK constBackend [("q", freshSearch constBackend "q")] := by
    intro q r hm
    rcases List.mem_cons.mp hm with he | ht
    · cases he
      rfl
    · cases ht
  exact ⟨h1, h2, c2_deterministic_final_state constBackend _ _ h1 h2 true true false false
    (initialState "t" "gen-z") "t" "gen-z"⟩

/-- The value `run_research_async` extracts from the streamed updates of a
successful run: the captured truthy `final` output, or the empty string — which
is the merge output in every case, because the merge output is the only
streamed `final` value. -/
theorem asyncCapture (R D FC ED FIN : String) (o : Bool) :
    (([(NodeName.strategist, StateField.research, R), (NodeName.writer, StateField.draft, D)] ++
      (if o then [(NodeName.fact_checker, StateField.fact_checked, FC),
                  (NodeName.editor, StateField.edited, ED)]
       else [(NodeName.editor, StateField.edited, ED),
             (NodeName.fact_checker, StateField.fact_checked, FC)]) ++
      [(NodeName.merge, StateField.final, FIN)]).foldl
      (fun acc p => if p.2.1 = StateField.final ∧ p.2.2 ≠ "" then some p.2.2 else acc)
      none).getD "" = FIN := by
  cases o <;> by_cases h : FIN = "" <;> simp [h]

/-- A backend that answers the merge prompt with the empty string and every
other prompt with "DRAFT"; it exhibits a successful run whose `final` field is
empty while `draft` is not. -/
def mergeEmptyBackend : Backend :=
  ⟨fun _ => [], fun msgs =>
    match msgs.head? with
    | some p => if p.2 = mergeSystem then Except.ok "" else Except.ok "DRAFT"
    | none => Except.ok "DRAFT"⟩

set_option maxRecDepth 100000 in
/-- C9 counterexample: in a run where the merge output is empty but the draft
is "DRAFT", the synchronous `run_research` returns "" — it does *not* fall back
to the `draft` field, because `final_state.get("final", ...)` only falls back
when the key is absent, and `run_research` initialises every key. -/
theorem c9_counterexample :
    (run_research mergeEmptyBackend true true [] "t" "analytical").2.map Prod.fst
        = Except.ok "" ∧
      (stepGraph mergeEmptyBackend true [] (initialState "t" "analytical")).streamed =
        [(NodeName.strategist, StateField.research, "DRAFT"),
         (NodeName.writer, StateField.draft, "DRAFT"),
         (NodeName.fact_checker, StateField.fact_checked, "DRAFT"),
         (NodeName.editor, StateField.edited, "DRAFT"),
         (NodeName.merge, StateField.final, "")] :=
  ⟨rfl, rfl⟩

/-- C9 (amended): for every deterministic backend (with normally returning LLM
calls) and consistent module caches, the synchronous `run_research` and the
asynchronous `run_research_async` return the same content string — both return
the merge step's output (`run_research` reads the always-present `final` key,
whose `get` fallback to `draft` can never trigger because the initial state
defines every key; `run_research_async` returns the captured truthy `final`
value or `""`, which equals the merge output in every case). -/
theorem c9_amended_sync_async_agree (be : Backend)
    (lf : List (String × String) → String)
    (hok : ∀ m, be.llm m = Except.ok (lf m)) (c c' : SearchCache)
    (hc : CacheOK be c) (hc' : CacheOK be c') (o1 o2 o3 : Bool) (i m : String) :
    (run_research be o1 o2 c i m).2.map Prod.fst
      = (run_research_async be o3 c' i m).2.map Prod.fst := by
  have chain : ∀ (a a' : Bool) (d d' : SearchCache), CacheOK be d → CacheOK be d' →
      (stepGraph be a d (initialState i m)).result
        = (stepGraph be a' d' (initialState i m)).result := by
    intro a a' d d' hd hd'
    calc (stepGraph be a d (initialState i m)).result
        = (stepGraph be a d' (initialState i m)).result :=
          (stepGraph_cache_congr be hd hd' a (initialState i m)).1
      _ = (stepGraph be a' d' (initialState i m)).result :=
          (stepGraph_order_congr be d' a a' (initialState i m)).1
  obtain ⟨R, D, FC, ED, FIN, s1, hres1, -, -, -, -, -, -, -, hfin1, -⟩ :=
    stepGraph_spec be lf hok o1 c (initialState i m) rfl rfl
  obtain ⟨R2, D2, FC2, ED2, FIN2, s2, hresA, hstrA, -, -, -, -, -, -, hfinA, -⟩ :=
    stepGraph_spec be lf hok o3 c' (initialState i m) rfl rfl
  have hcX : CacheOK be (stepGraph be o1 c (initialState i m)).cache :=
    (stepGraph_cache_congr be hc hc o1 (initialState i m)).2.2.2
  have hY : (stepGraph be o2 (stepGraph be o1 c (initialState i m)).cache
      (initialState i m)).result = Except.ok s1 := by
    rw [chain o2 o1 _ c hcX hc]
    exact hres1
  have hs12 : s2 = s1 := by
    have h := chain o3 o1 c' c hc' hc
    rw [hresA, hres1] at h
    exact Except.ok.inj h
  have hFIN : FIN2 = FIN := by
    have h1 : s1 StateField.final = some FIN := hfin1
    have h2 : s1 StateField.final = some FIN2 := by rw [← hs12]; exact hfinA
    rw [h1] at h2
    exact (Option.some.inj h2).symm
  have hsync : (run_research be o1 o2 c i m).2.map Prod.fst = Except.ok FIN := by
    unfold run_research
    simp only [hres1, hY, exceptMap_ok]
    simp [ResearchState.pyGet, hfin1]
  have hasync : (run_research_async be o3 c' i m).2.map Prod.fst = Except.ok FIN2 := by
    unfold run_research_async
    simp only [hresA, exceptMap_ok]
    rw [hstrA, asyncCapture]
  rw [hsync, hasync, hFIN]

/-- C9 amended witness at a concrete backend and caches. -/
theorem c9_amended_witness :
    (∀ msgs, constBackend.llm msgs = Except.ok "x") ∧ CacheOK constBackend [] ∧
      (run_research constBackend true false [] "t" "gen-z").2.map Prod.fst
        = (run_research_async constBackend false [] "t" "gen-z").2.map Prod.fst :=
  ⟨fun _ => rfl, CacheOK.nil _,
    c9_amended_sync_async_agree constBackend (fun _ => "x") (fun _ => rfl) [] []
      (CacheOK.nil _) (CacheOK.nil _) true false false "t" "gen-z"⟩

/-- A state in which every field is present (as after `run_research`
initialises all keys). -/
def TotalState (s : ResearchState) : Prop := ∀ f, ∃ v, s f = some v

theorem initialState_total (i m : String) : TotalState (initialState i m) := by
  intro f
  cases f <;> exact ⟨_, rfl⟩

theorem TotalState.set {s : ResearchState} (ht : TotalState s) (f : StateField) (v : String) :
    TotalState (s.set f v) := by
  intro g
  by_cases hg : g = f
  · exact ⟨v, by simp [ResearchState.set, hg]⟩
  · obtain ⟨w, hw⟩ := ht g
    exact ⟨w, by simp [ResearchState.set, hg, hw]⟩

theorem mapError_map_err {X : Except String String} {g : String → StateField × String}
    {e : PyErr} (h : Except.map g (Except.mapError PyErr.llmError X) = Except.error e) :
    ∃ msg, e = PyErr.llmError msg := by
  cases X with
  | error msg =>
    refine ⟨msg, ?_⟩
    simp [Except.mapError, exceptMap_error] at h
    exact h.symm
  | ok v => simp [Except.mapError, exceptMap_ok] at h

theorem mapError_bind_pure_err {X : Except String String} {b : StateField} {e : PyErr}
    (h : (Except.mapError PyErr.llmError X >>= fun resp => pure (b, resp)) = Except.error e) :
    ∃ msg, e = PyErr.llmError msg := by
  cases X with
  | error msg =>
    refine ⟨msg, ?_⟩
    simp [Except.mapError, exceptBind_error] at h
    exact h.symm
  | ok v => simp [Except.mapError, exceptBind_ok, pure, Except.pure] at h

theorem strategist_node_err_total {be : Backend} {c : SearchCache} {s : ResearchState}
    {e : PyErr} (ht : TotalState s) (h : (strategist_node be c s).1 = Except.error e) :
    ∃ msg, e = PyErr.llmError msg := by
  obtain ⟨vi, hi⟩ := ht .input
  obtain ⟨vm, hm⟩ := ht .mode
  simp only [strategist_node, ResearchState.getItem, hi, hm, liftLLM] at h
  exact mapError_map_err h

theorem writer_node_err_total {be : Backend} {s : ResearchState} {e : PyErr}
    (ht : TotalState s) (h : writer_node be s = Except.error e) :
    ∃ msg, e = PyErr.llmError msg := by
  obtain ⟨vm, hm⟩ := ht .mode
  obtain ⟨vr, hr⟩ := ht .research
  simp only [writer_node, ResearchState.getItem, hm, hr, exceptBind_ok, liftLLM] at h
  exact mapError_bind_pure_err h

theorem fact_checker_node_err_total {be : Backend} {c : SearchCache} {s : ResearchState}
    {e : PyErr} (ht : TotalState s) (h : (fact_checker_node be c s).1 = Except.error e) :
    ∃ msg, e = PyErr.llmError msg := by
  obtain ⟨vm, hm⟩ := ht .mode
  obtain ⟨vd, hd⟩ := ht .draft
  obtain ⟨vi, hi⟩ := ht .input
  simp only [fact_checker_node, ResearchState.getItem, hm, hd, hi, liftLLM] at h
  cases hL : be.llm [("system", extractClaimsSystem), ("human", vd)] with
  | error msg =>
    refine ⟨msg, ?_⟩
    simp [hL, Except.mapError] at h
    exact h.symm
  | ok cl =>
    simp only [hL, Except.mapError] at h
    exact mapError_map_err h

theorem editor_node_err_total {be : Backend} {s : ResearchState} {e : PyErr}
    (ht : TotalState s) (h : editor_node be s = Except.error e) :
    ∃ msg, e = PyErr.llmError msg := by
  obtain ⟨vm, hm⟩ := ht .mode
  obtain ⟨vd, hd⟩ := ht .draft
  simp only [editor_node, ResearchState.getItem, hm, hd, exceptBind_ok, liftLLM] at h
  exact mapError_bind_pure_err h

theorem merge_node_err {be : Backend} {s : ResearchState} {e : PyErr}
    (h : merge_node be s = Except.error e) : ∃ msg, e = PyErr.llmError msg := by
  simp only [merge_node, liftLLM] at h
  exact mapError_map_err h

/-- In a run started from `run_research`'s fully initialised state, no
subscript read ever misses: the pipeline can only fail with an LLM error,
never a KeyError. -/
theorem stepGraph_no_keyError (be : Backend) (o : Bool) (c : SearchCache) (i m : String) :
    ∀ n f, (stepGraph be o c (initialState i m)).result ≠ Except.error (n, PyErr.keyError f) := by
  intro n f hcon
  have ht0 : TotalState (initialState i m) := initialState_total i m
  rcases hA : strategist_node be c (initialState i m) with ⟨r1, d1⟩
  cases r1 with
  | error e =>
    obtain ⟨msg, hmsg⟩ := strategist_node_err_total ht0 (by rw [hA])
    rw [hmsg] at hA
    simp [stepGraph, hA] at hcon
  | ok u1 =>
    have ht1 : TotalState ((initialState i m).set u1.1 u1.2) := ht0.set u1.1 u1.2
    cases hW : writer_node be ((initialState i m).set u1.1 u1.2) with
    | error e =>
      obtain ⟨msg, hmsg⟩ := writer_node_err_total ht1 hW
      rw [hmsg] at hW
      simp [stepGraph, hA, hW] at hcon
    | ok u2 =>
      have ht2 : TotalState (((initialState i m).set u1.1 u1.2).set u2.1 u2.2) :=
        ht1.set u2.1 u2.2
      rcases hF : fact_checker_node be d1 (((initialState i m).set u1.1 u1.2).set u2.1 u2.2)
        with ⟨rF, dF⟩
      cases rF with
      | error e =>
        obtain ⟨msg, hmsg⟩ := fact_checker_node_err_total ht2 (by rw [hF])
        rw [hmsg] at hF
        simp [stepGraph, hA, hW, hF] at hcon
      | ok uF =>
        cases hE : editor_node be (((initialState i m).set u1.1 u1.2).set u2.1 u2.2) with
        | error e =>
          obtain ⟨msg, hmsg⟩ := editor_node_err_total ht2 hE
          rw [hmsg] at hE
          simp [stepGraph, hA, hW, hF, hE] at hcon
        | ok uE =>
          cases hM : merge_node be
              (if o then (((((initialState i m).set u1.1 u1.2)).set u2.1 u2.2).set
                  uF.1 uF.2).set uE.1 uE.2
               else (((((initialState i m).set u1.1 u1.2)).set u2.1 u2.2).set
                  uE.1 uE.2).set uF.1 uF.2) with
          | error e =>
            obtain ⟨msg, hmsg⟩ := merge_node_err hM
            rw [hmsg] at hM
            simp [stepGraph, hA, hW, hF, hE, hM] at hcon
          | ok u4 =>
            simp [stepGraph, hA, hW, hF, hE, hM] at hcon

/-- The empty state: no field present (a state no well-formed run produces). -/
def emptyState : ResearchState := fun _ => none

/-- C6 counterexample: `merge_node` reads `fact_checked` and `edited` with
`state.get(..., "")`, so on a state where both fields are absent it silently
recovers with empty-string defaults and succeeds — contradicting the claim
that every step function's read of an absent field fails with a KeyError. -/
theorem c6_counterexample :
    merge_node constBackend emptyState = Except.ok (StateField.final, "x") := rfl

/-- C6 (amended): subscript reads fail loudly — `writer_node` on a state
without `research` raises exactly `KeyError('research')` — but `merge_node`'s
`state.get` reads never raise a KeyError (it can only fail through the LLM
call); and in a well-formed run (from `run_research`'s fully initialised
state) no KeyError is ever raised. -/
theorem c6_amended_absent_field_reads (be : Backend) (s : ResearchState) (mode : String)
    (hmode : s StateField.mode = some mode) (hres : s StateField.research = none) :
    writer_node be s = Except.error (PyErr.keyError StateField.research) ∧
      (∀ sx ex, merge_node be sx = Except.error ex → ∃ msg, ex = PyErr.llmError msg) ∧
      (∀ o c i m n f,
        (stepGraph be o c (initialState i m)).result ≠ Except.error (n, PyErr.keyError f)) := by
  refine ⟨?_, fun sx ex h => merge_node_err h, fun o c i m => stepGraph_no_keyError be o c i m⟩
  simp [writer_node, ResearchState.getItem, hmode, hres, exceptBind_ok, exceptBind_error]

/-- A state holding only `mode`, exhibiting the KeyError of a missing
`research` read. -/
def modeOnlyState : ResearchState := fun f =>
  if f = StateField.mode then some "analytical" else none

/-- C6 amended witness at a concrete backend and state. -/
theorem c6_amended_witness :
    modeOnlyState StateField.mode = some "analytical" ∧
    modeOnlyState StateField.research = none ∧
    (writer_node constBackend modeOnlyState
        = Except.error (PyErr.keyError StateField.research) ∧
      (∀ sx ex, merge_node constBackend sx = Except.error ex →
        ∃ msg, ex = PyErr.llmError msg) ∧
      (∀ o c i m n f, (stepGraph constBackend o c (initialState i m)).result
        ≠ Except.error (n, PyErr.keyError f))) :=
  ⟨rfl, rfl, c6_amended_absent_field_reads constBackend modeOnlyState "analytical" rfl rfl⟩

/-- The steps that depend directly or transitively on a given step, read off
the edges of `build_research_graph`. -/
def downstream : NodeName → List NodeName
  | .strategist => [.writer, .fact_checker, .editor, .merge]
  | .writer => [.fact_checker, .editor, .merge]
  | .fact_checker => [.merge]
  | .editor => [.merge]
  | .merge => []

def isErrorEvent : AgentEvent → Bool
  | .error _ => true
  | _ => false

def isStartEvent : AgentEvent → Bool
  | .agent_start _ _ => true
  | _ => false

theorem error_count_one (l : List (NodeName × StateField × String)) (msg : String) :
    ((AgentEvent.agent_start "Content Strategist" "Searching for recent trends..." ::
      (((l.map (fun p => AgentEvent.agent_complete (displayName p.1) "")).map
        langgraphCallbackEvents).flatten ++ [AgentEvent.error msg])).filter
      isErrorEvent).length = 1 := by
  induction l with
  | nil => rfl
  | cons p t ih => simpa [langgraphCallbackEvents, isErrorEvent] using ih

theorem stepGraph_no_downstream_started (be : Backend) (o : Bool) (c : SearchCache)
    (s0 : ResearchState) (f : NodeName) (e : PyErr)
    (h : (stepGraph be o c s0).result = Except.error (f, e)) :
    ∀ d, d ∈ downstream f → d ∉ (stepGraph be o c s0).started := by
  rcases hA : strategist_node be c s0 with ⟨r1, d1⟩
  cases r1 with
  | error e0 =>
    simp [stepGraph, hA] at h
    obtain ⟨hf, -⟩ := h
    subst hf
    simp only [stepGraph, hA, downstream]
    decide
  | ok u1 =>
    cases hW : writer_node be (s0.set u1.1 u1.2) with
    | error e0 =>
      simp [stepGraph, hA, hW] at h
      obtain ⟨hf, -⟩ := h
      subst hf
      simp only [stepGraph, hA, hW, downstream]
      decide
    | ok u2 =>
      rcases hF : fact_checker_node be d1 ((s0.set u1.1 u1.2).set u2.1 u2.2) with ⟨rF, dF⟩
      cases rF with
      | error e0 =>
        simp [stepGraph, hA, hW, hF] at h
        obtain ⟨hf, -⟩ := h
        subst hf
        simp only [stepGraph, hA, hW, hF, downstream]
        decide
      | ok uF =>
        cases hE : editor_node be ((s0.set u1.1 u1.2).set u2.1 u2.2) with
        | error e0 =>
          simp [stepGraph, hA, hW, hF, hE] at h
          obtain ⟨hf, -⟩ := h
          subst hf
          simp only [stepGraph, hA, hW, hF, hE, downstream]
          decide
        | ok uE =>
          cases hM : merge_node be
              (if o then ((((s0.set u1.1 u1.2).set u2.1 u2.2).set uF.1 uF.2).set uE.1 uE.2)
               else ((((s0.set u1.1 u1.2).set u2.1 u2.2).set uE.1 uE.2).set uF.1 uF.2)) with
          | error e0 =>
            simp [stepGraph, hA, hW, hF, hE, hM] at h
            obtain ⟨hf, -⟩ := h
            subst hf
            simp [downstream]
          | ok u4 =>
            simp [stepGraph, hA, hW, hF, hE, hM] at h

/-- C3: whenever a step function raises (here: during the streamed execution
inside `generate_research`), the run aborts — `generate_research`'s callback
stream carries exactly one `error` event, and no step that depends directly or
transitively on the failed step is ever started. -/
theorem c3_abort_one_error_no_dependents (be : Backend) (o1 o2 : Bool) (c : SearchCache)
    (i ty m rid : String) (f : NodeName) (e : PyErr)
    (h : (stepGraph be o1 c (initialState i m)).result = Except.error (f, e)) :
    ((generate_research be o1 o2 c i ty m rid).filter isErrorEvent).length = 1 ∧
      ∀ d, d ∈ downstream f → d ∉ (stepGraph be o1 c (initialState i m)).started := by
  constructor
  · have hgen : generate_research be o1 o2 c i ty m rid =
        AgentEvent.agent_start "Content Strategist" "Searching for recent trends..." ::
        ((((stepGraph be o1 c (initialState i m)).streamed.map
            (fun p => AgentEvent.agent_complete (displayName p.1) "")).map
          langgraphCallbackEvents).flatten ++ [AgentEvent.error e.pyStr]) := by
      simp [generate_research, run_research, h]
    rw [hgen]
    exact error_count_one _ _
  · exact stepGraph_no_downstream_started be o1 c _ f e h

/-- C3 witness at a backend whose LLM always raises: the strategist fails and
the single error event carries the message. -/
theorem c3_witness :
    (stepGraph (Backend.mk (fun _ => []) (fun _ => Except.error "boom")) true []
        (initialState "t" "analytical")).result
      = Except.error (NodeName.strategist, PyErr.llmError "boom") ∧
    (((generate_research (Backend.mk (fun _ => []) (fun _ => Except.error "boom")) true true
        [] "t" "topic" "analytical" "id").filter isErrorEvent).length = 1 ∧
      ∀ d, d ∈ downstream NodeName.strategist →
        d ∉ (stepGraph (Backend.mk (fun _ => []) (fun _ => Except.error "boom")) true []
          (initialState "t" "analytical")).started) :=
  ⟨rfl, c3_abort_one_error_no_dependents _ true true [] "t" "topic" "analytical" "id"
    NodeName.strategist (PyErr.llmError "boom") rfl⟩

/-- A backend whose LLM always raises with message "boom": the pipeline fails
at the strategist. -/
def failAllBackend : Backend := ⟨fun _ => [], fun _ => Except.error "boom"⟩

/-- A backend whose LLM answers only the strategist prompt and raises with
"boom" on anything else: the pipeline fails at the writer. -/
def failWriterBackend : Backend :=
  ⟨fun _ => [], fun msgs =>
    match msgs.head? with
    | some p => if p.2 = strategistSystem then Except.ok "x" else Except.error "boom"
    | none => Except.error "boom"⟩

def isProgressEvent : AgentEvent → Bool
  | .agent_progress _ _ _ => true
  | _ => false

/-- `Interleaving l r s`: `s` is an order-preserving interleaving of `l` and
`r` — the shape of the service's callback stream, where the events of the
`generate_research` skeleton (`l`) and the progress-animation thread's timer
events (`r`) arrive through the same callback in an arbitrary relative
order. -/
inductive Interleaving : List AgentEvent → List AgentEvent → List AgentEvent → Prop where
  | nil : Interleaving [] [] []
  | left (e : AgentEvent) {l r s : List AgentEvent} (h : Interleaving l r s) :
      Interleaving (e :: l) r (e :: s)
  | right (e : AgentEvent) {l r s : List AgentEvent} (h : Interleaving l r s) :
      Interleaving l (e :: r) (e :: s)

/-- Filtering an interleaving by a predicate that rejects every event of the
right-hand list gives the filtered left-hand list. -/
theorem Interleaving.filter_eq {p : AgentEvent → Bool} :
    ∀ {l r s : List AgentEvent}, Interleaving l r s → (∀ e ∈ r, p e = false) →
      s.filter p = l.filter p := by
  intro l r s h
  induction h with
  | nil => intro _; rfl
  | left e h ih =>
    intro hr
    simp only [List.filter_cons, ih hr]
  | right e h ih =>
    intro hr
    have hpe : p e = false := hr e (by simp)
    simp only [List.filter_cons, hpe, Bool.false_eq_true, if_false]
    exact ih (fun x hx => hr x (List.mem_cons_of_mem _ hx))

/-- The error events of a failed-run `generate_research` skeleton: exactly the
one error event with the exception's message. -/
theorem error_filter_singleton (l : List (NodeName × StateField × String)) (msg : String) :
    ((AgentEvent.agent_start "Content Strategist" "Searching for recent trends..." ::
      (((l.map (fun p => AgentEvent.agent_complete (displayName p.1) "")).map
        langgraphCallbackEvents).flatten ++ [AgentEvent.error msg])).filter
      isErrorEvent) = [AgentEvent.error msg] := by
  induction l with
  | nil => rfl
  | cons p t ih => simp [langgraphCallbackEvents, isErrorEvent, ih]

/-- The non-progress events of a failed-run `generate_research` skeleton: the
leading start, the per-node completes, and the error event last. -/
theorem nonprogress_filter (l : List (NodeName × StateField × String)) (msg : String) :
    ((AgentEvent.agent_start "Content Strategist" "Searching for recent trends..." ::
      (((l.map (fun p => AgentEvent.agent_complete (displayName p.1) "")).map
        langgraphCallbackEvents).flatten ++ [AgentEvent.error msg])).filter
      (fun ev => !(isProgressEvent ev)))
    = AgentEvent.agent_start "Content Strategist" "Searching for recent trends..." ::
      (l.map (fun p => AgentEvent.agent_complete (displayName p.1) "") ++
        [AgentEvent.error msg]) := by
  induction l with
  | nil => rfl
  | cons p t ih => simpa [langgraphCallbackEvents, isProgressEvent] using ih

/-- C7 (amended): in the callback stream of a failed run — the
`generate_research` events interleaved with any `agent_progress` emissions of
the progress-animation thread, which keeps running after the `except` path —
there is exactly one `error` event; its payload is exactly `str(e)`, the
raised exception's message, so it does not carry the failing step's name and
nothing else (prompts, keys, step outputs) enters it; and it is the last
non-progress event of the stream (only the animation thread's `agent_progress`
events can follow it). -/
theorem c7_amended_error_event_payload (be : Backend) (o1 o2 : Bool) (c : SearchCache)
    (i ty m rid : String) (f : NodeName) (e : PyErr)
    (h : (stepGraph be o1 c (initialState i m)).result = Except.error (f, e))
    (thread stream : List AgentEvent)
    (hthread : ∀ ev ∈ thread, isProgressEvent ev = true)
    (hs : Interleaving (generate_research be o1 o2 c i ty m rid) thread stream) :
    stream.filter isErrorEvent = [AgentEvent.error e.pyStr] ∧
      (stream.filter (fun ev => !(isProgressEvent ev))).getLast?
        = some (AgentEvent.error e.pyStr) := by
  have hgen : generate_research be o1 o2 c i ty m rid =
      AgentEvent.agent_start "Content Strategist" "Searching for recent trends..." ::
      ((((stepGraph be o1 c (initialState i m)).streamed.map
          (fun p => AgentEvent.agent_complete (displayName p.1) "")).map
        langgraphCallbackEvents).flatten ++ [AgentEvent.error e.pyStr]) := by
    simp [generate_research, run_research, h]
  have hthread1 : ∀ ev ∈ thread, isErrorEvent ev = false := by
    intro ev hev
    have hp := hthread ev hev
    cases ev <;> simp_all [isProgressEvent, isErrorEvent]
  have hthread2 : ∀ ev ∈ thread, (fun ev => !(isProgressEvent ev)) ev = false := by
    intro ev hev
    simp [hthread ev hev]
  constructor
  · rw [hs.filter_eq hthread1, hgen, error_filter_singleton]
  · rw [hs.filter_eq hthread2, hgen, nonprogress_filter, ← List.cons_append,
      List.getLast?_concat]

set_option maxRecDepth 100000 in
/-- C7 amended witness: a concrete failing backend, with one animation-thread
progress event delivered after the error event. -/
theorem c7_amended_witness :
    (stepGraph failAllBackend true [] (initialState "t" "analytical")).result
        = Except.error (NodeName.strategist, PyErr.llmError "boom") ∧
      ([AgentEvent.agent_start "Content Strategist" "Searching for recent trends...",
        AgentEvent.error "boom",
        AgentEvent.agent_progress "Content Strategist" 8
          "Searching for recent trends..."].filter isErrorEvent
          = [AgentEvent.error "boom"] ∧
        ([AgentEvent.agent_start "Content Strategist" "Searching for recent trends...",
          AgentEvent.error "boom",
          AgentEvent.agent_progress "Content Strategist" 8
            "Searching for recent trends..."].filter
          (fun ev => !(isProgressEvent ev))).getLast?
            = some (AgentEvent.error "boom")) := by
  have hg : generate_research failAllBackend true true [] "t" "topic" "analytical" "id"
      = [AgentEvent.agent_start "Content Strategist" "Searching for recent trends...",
         AgentEvent.error "boom"] := rfl
  have hs : Interleaving
      (generate_research failAllBackend true true [] "t" "topic" "analytical" "id")
      [AgentEvent.agent_progress "Content Strategist" 8 "Searching for recent trends..."]
      [AgentEvent.agent_start "Content Strategist" "Searching for recent trends...",
       AgentEvent.error "boom",
       AgentEvent.agent_progress "Content Strategist" 8
         "Searching for recent trends..."] := by
    rw [hg]
    exact .left _ (.left _ (.right _ .nil))
  exact ⟨rfl,
    c7_amended_error_event_payload failAllBackend true true [] "t" "topic" "analytical" "id"
      NodeName.strategist (PyErr.llmError "boom") rfl _ _ (by decide) hs⟩

set_option maxRecDepth 100000 in
/-- C7 counterexample: two runs failing at different steps (strategist vs
writer) with the same exception message deliver the *same* terminal event, so
the terminal event cannot carry the name of the failing step — contradicting
the claim that it does. -/
theorem c7_counterexample :
    (stepGraph failAllBackend true [] (initialState "t" "analytical")).result
        = Except.error (NodeName.strategist, PyErr.llmError "boom") ∧
      (stepGraph failWriterBackend true [] (initialState "t" "analytical")).result
        = Except.error (NodeName.writer, PyErr.llmError "boom") ∧
      (generate_research failAllBackend true true [] "t" "topic" "analytical" "id").getLast?
        = (generate_research failWriterBackend true true [] "t" "topic" "analytical"
            "id").getLast? ∧
      (generate_research failWriterBackend true true [] "t" "topic" "analytical"
          "id").getLast? = some (AgentEvent.error "boom") :=
  ⟨rfl, rfl, rfl, rfl⟩

/-- Checks that every `agent_complete` in the event list is preceded by an
`agent_start` for the same agent (scanning left to right with the set of
started agents). -/
def startsBeforeCompletes : List String → List AgentEvent → Bool
  | _, [] => true
  | started, AgentEvent.agent_start a _ :: rest => startsBeforeCompletes (a :: started) rest
  | started, AgentEvent.agent_complete a _ :: rest =>
      started.contains a && startsBeforeCompletes started rest
  | started, _ :: rest => startsBeforeCompletes started rest

theorem run_research_events (be : Backend) (o1 o2 : Bool) (c : SearchCache) (i m : String) :
    (run_research be o1 o2 c i m).1 =
      (stepGraph be o1 c (initialState i m)).streamed.map
        (fun p => AgentEvent.agent_complete (displayName p.1) "") := by
  cases h : (stepGraph be o1 c (initialState i m)).result with
  | error fe => simp [run_research, h]
  | ok s =>
    cases h2 : (stepGraph be o2 (stepGraph be o1 c (initialState i m)).cache
        (initialState i m)).result <;> simp [run_research, h, h2]

theorem run_research_async_events (be : Backend) (o : Bool) (c : SearchCache) (i m : String) :
    (run_research_async be o c i m).1 =
      ((stepGraph be o c (initialState i m)).streamed.map asyncNodeEvents).flatten := by
  cases h : (stepGraph be o c (initialState i m)).result <;> simp [run_research_async, h]

set_option maxRecDepth 100000 in
/-- C4 counterexample: in the service's synchronous event stream, the step
"Blog Writer" gets an `agent_complete` event but never an `agent_start` — the
sync pipeline emits only completes, and `generate_research` sends a start only
for the Content Strategist — so "a step-start event for X is emitted before the
step-complete event for X" fails for X = Blog Writer. -/
theorem c4_counterexample :
    ((generate_research constBackend true true [] "t" "topic" "analytical" "id").filter
        (fun e => match e with
          | AgentEvent.agent_complete a _ => a == "Blog Writer"
          | _ => false)).length = 1 ∧
      ((generate_research constBackend true true [] "t" "topic" "analytical" "id").filter
        (fun e => match e with
          | AgentEvent.agent_start a _ => a == "Blog Writer"
          | _ => false)).length = 0 :=
  ⟨rfl, rfl⟩

/-- C4 (amended): in the asynchronous pipeline every step's start event
precedes its complete event; in the service's synchronous stream the only
start event is the leading Content Strategist start (so it precedes every
complete), and in a successful run the terminal `complete` event is the last
event delivered. -/
theorem c4_amended_event_ordering (be : Backend) (lf : List (String × String) → String)
    (hok : ∀ m, be.llm m = Except.ok (lf m)) (c c' : SearchCache) (hc : CacheOK be c)
    (o1 o2 o3 : Bool) (i ty m rid : String) :
    startsBeforeCompletes [] (run_research_async be o3 c' i m).1 = true ∧
    (generate_research be o1 o2 c i ty m rid).head?
        = some (AgentEvent.agent_start "Content Strategist"
            "Searching for recent trends...") ∧
    ((generate_research be o1 o2 c i ty m rid).filter isStartEvent).length = 1 ∧
    ∃ content, (generate_research be o1 o2 c i ty m rid).getLast?
        = some (AgentEvent.complete rid content) := by
  obtain ⟨R, D, FC, ED, FIN, s1, hres1, hstr1, -, -, -, -, -, -, hfin1, -⟩ :=
    stepGraph_spec be lf hok o1 c (initialState i m) rfl rfl
  have hcX : CacheOK be (stepGraph be o1 c (initialState i m)).cache :=
    (stepGraph_cache_congr be hc hc o1 (initialState i m)).2.2.2
  have hY : (stepGraph be o2 (stepGraph be o1 c (initialState i m)).cache
      (initialState i m)).result = Except.ok s1 := by
    calc (stepGraph be o2 (stepGraph be o1 c (initialState i m)).cache
        (initialState i m)).result
        = (stepGraph be o2 c (initialState i m)).result :=
          (stepGraph_cache_congr be hcX hc o2 (initialState i m)).1
      _ = (stepGraph be o1 c (initialState i m)).result :=
          (stepGraph_order_congr be c o2 o1 (initialState i m)).1
      _ = Except.ok s1 := hres1
  have hrr2 : (run_research be o1 o2 c i m).2
      = Except.ok (FIN, (stepGraph be o2 (stepGraph be o1 c (initialState i m)).cache
          (initialState i m)).cache) := by
    unfold run_research
    simp only [hres1, hY]
    simp [ResearchState.pyGet, hfin1]
  refine ⟨?_, rfl, ?_, ?_⟩
  · rw [run_research_async_events]
    cases o3 with
    | true =>
      obtain ⟨R2, D2, FC2, ED2, FIN2, s2, -, hstr2, -, -, -, -, -, -, -, -⟩ :=
        stepGraph_spec be lf hok true c' (initialState i m) rfl rfl
      rw [hstr2]
      rfl
    | false =>
      obtain ⟨R2, D2, FC2, ED2, FIN2, s2, -, hstr2, -, -, -, -, -, -, -, -⟩ :=
        stepGraph_spec be lf hok false c' (initialState i m) rfl rfl
      rw [hstr2]
      rfl
  · simp only [generate_research, run_research_events, hstr1, hrr2, humanize_content,
      highlight_content, hok]
    cases o1 <;> rfl
  · refine ⟨convertHighlights (lf [("human", highlightPrompt
      (lf [("human", humanizePrompt FIN)]))]), ?_⟩
    simp only [generate_research, run_research_events, hstr1, hrr2, humanize_content,
      highlight_content, hok]
    cases o1 <;> rfl

/-- C4 amended witness at a concrete backend. -/
theorem c4_amended_witness :
    (∀ m, constBackend.llm m = Except.ok "x") ∧ CacheOK constBackend [] ∧
      (startsBeforeCompletes []
          (run_research_async constBackend false [] "t" "gen-z").1 = true ∧
        (generate_research constBackend true true [] "t" "topic" "gen-z" "id").head?
            = some (AgentEvent.agent_start "Content Strategist"
                "Searching for recent trends...") ∧
        ((generate_research constBackend true true [] "t" "topic" "gen-z" "id").filter
            isStartEvent).length = 1 ∧
        ∃ content, (generate_research constBackend true true [] "t" "topic" "gen-z"
            "id").getLast? = some (AgentEvent.complete "id" content)) :=
  ⟨fun _ => rfl, CacheOK.nil _,
    c4_amended_event_ordering constBackend (fun _ => "x") (fun _ => rfl) [] []
      (CacheOK.nil _) true true false "t" "topic" "gen-z" "id"⟩

theorem kahnIter_mono {g : List SpecStep} : ∀ {m n : Nat}, m ≤ n →
    kahnIter g m ⊆ kahnIter g n := by
  intro m n h
  induction h with
  | refl => exact fun x hx => hx
  | step h ih => exact fun x hx => List.mem_append_left _ (ih hx)

theorem mem_kahnExpand {g : List SpecStep} {done : List String} {x : String} :
    x ∈ kahnExpand g done ↔
      x ∈ done ∨ ∃ s, s ∈ g ∧ s.name = x ∧ x ∉ done ∧ ∀ d ∈ s.deps, d ∈ done := by
  simp only [kahnExpand, List.mem_append, List.mem_map, List.mem_filter, decide_eq_true_eq]
  constructor
  · rintro (h | ⟨s, ⟨hs, hcond⟩, hname⟩)
    · exact Or.inl h
    · exact Or.inr ⟨s, hs, hname, hname ▸ hcond.1, hcond.2⟩
  · rintro (h | ⟨s, hs, hname, hx, hdeps⟩)
    · exact Or.inl h
    · exact Or.inr ⟨s, ⟨hs, ⟨by rw [hname]; exact hx, hdeps⟩⟩, hname⟩

theorem step_unique {g : List SpecStep} (hnd : (stepNames g).Nodup) {s s' : SpecStep}
    (hs : s ∈ g) (hs' : s' ∈ g) (h : s.name = s'.name) : s = s' :=
  List.inj_on_of_nodup_map hnd hs hs' h

theorem DepPath.dest {g : List SpecStep} {x c : String} (h : DepPath g x c) :
    ∃ s, s ∈ g ∧ s.name = c ∧ ∃ b, b ∈ s.deps ∧ (b = x ∨ DepPath g x b) := by
  induction h with
  | edge s hs d hd => exact ⟨s, hs, rfl, d, hd, Or.inl rfl⟩
  | tail a s hs b hb hp ih => exact ⟨s, hs, rfl, b, hb, Or.inr hp⟩

theorem kahn_pred_earlier {g : List SpecStep} (hnd : (stepNames g).Nodup) :
    ∀ n b, b ∈ kahnIter g (n + 1) → ∀ x, DepPath g x b → x ∈ kahnIter g n := by
  intro n
  induction n with
  | zero =>
    intro b hb x hp
    rcases mem_kahnExpand.mp hb with h | ⟨s, hs, hname, -, hdeps⟩
    · cases h
    · obtain ⟨s', hs', hname', b', hb', -⟩ := hp.dest
      have hss : s' = s := step_unique hnd hs' hs (by rw [hname', hname])
      subst hss
      exact absurd (hdeps b' hb') (List.not_mem_nil b')
  | succ n ih =>
    intro b hb x hp
    rcases mem_kahnExpand.mp hb with h | ⟨s, hs, hname, -, hdeps⟩
    · exact kahnIter_mono (Nat.le_succ n) (ih b h x hp)
    · obtain ⟨s', hs', hname', b', hb', hbx⟩ := hp.dest
      have hss : s' = s := step_unique hnd hs' hs (by rw [hname', hname])
      subst hss
      have hb'mem : b' ∈ kahnIter g (n + 1) := hdeps b' hb'
      rcases hbx with rfl | hp'
      · exact hb'mem
      · exact kahnIter_mono (Nat.le_succ n) (ih b' hb'mem x hp')

theorem cycle_never_in_kahn {g : List SpecStep} (hnd : (stepNames g).Nodup) {a : String}
    (hcyc : DepPath g a a) : ∀ n, a ∉ kahnIter g n := by
  intro n
  induction n with
  | zero => simp [kahnIter]
  | succ n ih => exact fun hmem => ih (kahn_pred_earlier hnd n a hmem a hcyc)

theorem topo_kahn_complete {g : List SpecStep} {ord : List String}
    (hperm : ord.Perm (stepNames g))
    (hord : ∀ s ∈ g, ∀ d ∈ s.deps, ord.indexOf d < ord.indexOf s.name)
    (hdecl : ∀ s ∈ g, ∀ d ∈ s.deps, d ∈ stepNames g) :
    ∀ s ∈ g, s.name ∈ kahnIter g g.length := by
  have key : ∀ i, ∀ s, s ∈ g → ord.indexOf s.name = i → s.name ∈ kahnIter g (i + 1) := by
    intro i
    induction i using Nat.strong_induction_on with
    | _ i ih =>
      intro s hs hidx
      have hdeps : ∀ d ∈ s.deps, d ∈ kahnIter g i := by
        intro d hd
        have hdi : ord.indexOf d < i := hidx ▸ hord s hs d hd
        obtain ⟨s', hs', hname'⟩ := List.mem_map.mp (hdecl s hs d hd)
        have hrec := ih (ord.indexOf d) hdi s' hs' (by rw [hname'])
        rw [hname'] at hrec
        exact kahnIter_mono (Nat.succ_le_of_lt hdi) hrec
      by_cases hin : s.name ∈ kahnIter g i
      · exact kahnIter_mono (Nat.le_succ i) hin
      · exact mem_kahnExpand.mpr (Or.inr ⟨s, hs, rfl, hin, hdeps⟩)
  intro s hs
  have hmem : s.name ∈ ord := hperm.mem_iff.mpr (List.mem_map_of_mem _ hs)
  have hlt : ord.indexOf s.name < ord.length := List.indexOf_lt_length.mpr hmem
  have hlen : ord.length = g.length := by
    rw [hperm.length_eq]
    exact List.length_map _ _
  exact kahnIter_mono (by omega) (key (ord.indexOf s.name) s hs rfl)

theorem finalize_wellFormed {g : List SpecStep} (h : WellFormed g) :
    finalize g = Except.ok ⟨g, kahnIter g g.length⟩ := by
  obtain ⟨hnd, hdecl, ⟨ord, hperm, hord⟩, hentry, hreach⟩ := h
  have hacy : ∀ s ∈ g, s.name ∈ kahnIter g g.length := topo_kahn_complete hperm hord hdecl
  unfold finalize
  rw [if_neg (not_not_intro hnd), if_neg (not_not_intro hdecl), if_neg (not_not_intro hacy),
    if_neg (not_not_intro ⟨hentry, hreach⟩)]

theorem finalize_cycle {g : List SpecStep} (hnd : (stepNames g).Nodup)
    (hdecl : ∀ s ∈ g, ∀ d ∈ s.deps, d ∈ stepNames g) (hcyc : HasCycle g) :
    finalize g = Except.error GraphError.CycleError := by
  obtain ⟨a, hp⟩ := hcyc
  have hnot : ¬ ∀ s ∈ g, s.name ∈ kahnIter g g.length := by
    intro hall
    obtain ⟨s, hs, hname, -⟩ := hp.dest
    exact cycle_never_in_kahn hnd hp g.length (hname ▸ hall s hs)
  unfold finalize
  rw [if_neg (not_not_intro hnd), if_neg (not_not_intro hdecl), if_pos hnot]

/-- The two-step cyclic graph of the spec's scenario: A depends on B and B
depends on A. -/
def cycleGraphDef : List SpecStep := [⟨"A", ["B"]⟩, ⟨"B", ["A"]⟩]

/-- C5: for every well-formed graph (unique names, dependencies declared,
acyclic, exactly one entry frontier from which every step is reachable),
`finalize` succeeds and returns the immutable compiled graph; for every graph
with a dependency cycle (names unique and dependencies declared, as `add_step`
guarantees), `finalize` fails with `CycleError`.  In particular the graph of
`build_research_graph` (strategist → writer → {fact_checker, editor} → merge)
is acyclic, has the single entry step strategist, and compiles successfully. -/
theorem c5_finalize_spec :
    (∀ g : List SpecStep, WellFormed g →
      finalize g = Except.ok ⟨g, kahnIter g g.length⟩) ∧
    (∀ g : List SpecStep, (stepNames g).Nodup →
      (∀ s ∈ g, ∀ d ∈ s.deps, d ∈ stepNames g) → HasCycle g →
      finalize g = Except.error GraphError.CycleError) ∧
    finalize researchGraphDef = Except.ok ⟨researchGraphDef,
      ["strategist", "writer", "fact_checker", "editor", "merge"]⟩ ∧
    entrySteps researchGraphDef = ["strategist"] ∧
    Acyclic researchGraphDef := by
  refine ⟨fun g h => finalize_wellFormed h,
    fun g h1 h2 h3 => finalize_cycle h1 h2 h3, ?_, rfl, ?_⟩
  · rfl
  · exact ⟨["strategist", "writer", "fact_checker", "editor", "merge"],
      List.Perm.refl _, by decide⟩

/-- C5 witness: the research graph is well-formed and compiles; the cyclic
two-step graph has a cycle and `finalize` rejects it with `CycleError`. -/
theorem c5_witness :
    WellFormed researchGraphDef ∧ HasCycle cycleGraphDef ∧
      finalize researchGraphDef = Except.ok ⟨researchGraphDef,
        ["strategist", "writer", "fact_checker", "editor", "merge"]⟩ ∧
      finalize cycleGraphDef = Except.error GraphError.CycleError := by
  have hwf : WellFormed researchGraphDef :=
    ⟨by decide, by decide,
      ⟨["strategist", "writer", "fact_checker", "editor", "merge"],
        List.Perm.refl _, by decide⟩, by decide, by decide⟩
  have hcyc : HasCycle cycleGraphDef :=
    ⟨"A", DepPath.tail "A" ⟨"A", ["B"]⟩ (by simp [cycleGraphDef]) "B" (by simp)
      (DepPath.edge ⟨"B", ["A"]⟩ (by simp [cycleGraphDef]) "A" (by simp))⟩
  refine ⟨hwf, hcyc, ?_, ?_⟩
  · have h := c5_finalize_spec.1 researchGraphDef hwf
    exact h
  · exact c5_finalize_spec.2.1 cycleGraphDef (by decide) (by decide) hcyc
